import Mathlib

/-!
# Oink prover round sequencing

A shallow embedding of `barretenberg/ultra_honk/oink_prover.cpp`.

The prover talks to three collaborators that live outside the translated
sources: the transcript (`send_to_verifier`, `get_challenge`,
`get_challenges`), the commitment key (`commit`) and the proving key's mutation
entry points.  Every call made to one of them is appended, in program order, to
a call trace carried by the prover state, so that ordering properties can be
stated about the code as written.  The values the collaborators return are
taken as parameters (`Collaborators`).

The generated relations `powers` and `range_check_da_gas_hi` are embedded in
the namespace `Avm_vm` below, over an arbitrary commutative ring of values.
-/

namespace Oink

/-- Compile-time facts about a flavor that the prover branches on:
`IsGoblinFlavor<Flavor>` and the number of entries of `Flavor::RelationSeparator`. -/
structure Flavor where
  IsGoblinFlavor : Bool
  RelationSeparator_size : Nat
  deriving DecidableEq, Repr

/-- The challenges written by the Oink rounds into `relation_parameters`. -/
structure RelationParameters (FF : Type) where
  eta : FF
  eta_two : FF
  eta_three : FF
  beta : FF
  gamma : FF
  deriving DecidableEq, Repr

/-- The witness polynomials of the proving key that the rounds read. The last four
groups exist only in the Goblin (Mega) flavor. -/
structure ProverPolynomials (Poly : Type) where
  w_l : Poly
  w_r : Poly
  w_o : Poly
  w_4 : Poly
  lookup_read_counts : Poly
  lookup_read_tags : Poly
  lookup_inverses : Poly
  z_perm : Poly
  ecc_op_wires : List Poly
  databus_entities : List Poly
  calldata_inverses : Poly
  return_data_inverses : Poly
  deriving DecidableEq, Repr

/-- The proving key: `size_t` metadata, the public inputs and the polynomials. -/
structure ProvingKey (FF Poly : Type) where
  circuit_size : Nat
  num_public_inputs : Nat
  pub_inputs_offset : Nat
  public_inputs : List FF
  polynomials : ProverPolynomials Poly
  deriving DecidableEq, Repr

/-- One commitment slot per witness polynomial. -/
structure WitnessCommitments (Comm : Type) where
  w_l : Comm
  w_r : Comm
  w_o : Comm
  w_4 : Comm
  lookup_read_counts : Comm
  lookup_read_tags : Comm
  lookup_inverses : Comm
  z_perm : Comm
  ecc_op_wires : List Comm
  databus_entities : List Comm
  calldata_inverses : Comm
  return_data_inverses : Comm
  deriving DecidableEq, Repr

/-- One label per witness polynomial. -/
structure CommitmentLabels where
  w_l : String
  w_r : String
  w_o : String
  w_4 : String
  lookup_read_counts : String
  lookup_read_tags : String
  lookup_inverses : String
  z_perm : String
  ecc_op_wires : List String
  databus_entities : List String
  calldata_inverses : String
  return_data_inverses : String
  deriving DecidableEq, Repr

/-- The four wire commitments, as returned by `witness_commitments.get_wires()`. -/
def WitnessCommitments.get_wires {Comm : Type} (wc : WitnessCommitments Comm) : List Comm :=
  [wc.w_l, wc.w_r, wc.w_o, wc.w_4]

/-- The four wire labels, as returned by `commitment_labels.get_wires()`. -/
def CommitmentLabels.get_wires (cl : CommitmentLabels) : List String :=
  [cl.w_l, cl.w_r, cl.w_o, cl.w_4]

/-- A value handed to `send_to_verifier`: a `uint32_t`, a field element or a commitment. -/
inductive Message (FF Comm : Type) where
  | uint32 (v : Nat)
  | field (v : FF)
  | commitment (c : Comm)
  deriving DecidableEq, Repr

/-- One call made by the prover to a collaborator. -/
inductive Call (FF Poly Comm : Type) where
  | send_to_verifier (label : String) (value : Message FF Comm)
  | get_challenges (labels : List String)
  | get_challenge (label : String)
  | commit (polynomial : Poly)
  | add_ram_rom_memory_records_to_wire_4 (eta eta_two eta_three : FF)
  | compute_logderivative_inverses (rp : RelationParameters FF)
  | compute_grand_product_polynomials (rp : RelationParameters FF)
  deriving DecidableEq, Repr

/-- Whether a call is addressed to the transcript. -/
def Call.is_transcript_call {FF Poly Comm : Type} : Call FF Poly Comm → Bool
  | .send_to_verifier _ _ => true
  | .get_challenges _ => true
  | .get_challenge _ => true
  | _ => false

/-- Whether a call is a challenge request. -/
def Call.is_challenge_request {FF Poly Comm : Type} : Call FF Poly Comm → Bool
  | .get_challenges _ => true
  | .get_challenge _ => true
  | _ => false

/-- The transcript's own view of a call trace: the sends and challenge requests, in order. -/
def transcript_log {FF Poly Comm : Type} (trace : List (Call FF Poly Comm)) :
    List (Call FF Poly Comm) :=
  trace.filter Call.is_transcript_call

/-- A transcript event with the value dropped: its kind and its label(s). -/
inductive TranscriptEvent where
  | send (label : String)
  | challenge_batch (labels : List String)
  | challenge (label : String)
  deriving DecidableEq, Repr

/-- The kind and label(s) of a transcript call; `none` for the other calls. -/
def Call.transcript_event {FF Poly Comm : Type} : Call FF Poly Comm → Option TranscriptEvent
  | .send_to_verifier label _ => some (.send label)
  | .get_challenges labels => some (.challenge_batch labels)
  | .get_challenge label => some (.challenge label)
  | _ => none

/-- The transcript event log of a call trace: kinds and labels, in order. -/
def transcript_events {FF Poly Comm : Type} (trace : List (Call FF Poly Comm)) :
    List TranscriptEvent :=
  trace.filterMap Call.transcript_event

/-- Modelled from the spec: the collaborators of section 6, whose code is outside the
translated sources. `challenge log labels i` is the `i`-th value of the batch the transcript
derives for `labels` when `log` is everything it has recorded so far; `commit` is the
commitment key; the last three are the proving key's mutation entry points, which read the
relation parameters and return the mutated key. -/
structure Collaborators (FF Poly Comm : Type) where
  challenge : List (Call FF Poly Comm) → List String → Nat → FF
  commit : Poly → Comm
  add_ram_rom_memory_records_to_wire_4 : ProvingKey FF Poly → FF → FF → FF → ProvingKey FF Poly
  compute_logderivative_inverses :
    ProvingKey FF Poly → RelationParameters FF → ProvingKey FF Poly
  compute_grand_product_polynomials :
    ProvingKey FF Poly → RelationParameters FF → ProvingKey FF Poly

/-- The members of `OinkProver<Flavor>`, with the shared transcript and commitment key
represented by the trace of the calls made to them. -/
structure OinkProver (FF Poly Comm : Type) where
  proving_key : ProvingKey FF Poly
  relation_parameters : RelationParameters FF
  witness_commitments : WitnessCommitments Comm
  commitment_labels : CommitmentLabels
  domain_separator : String
  trace : List (Call FF Poly Comm)
  deriving DecidableEq, Repr

/-- The designated initialiser of `OinkProverOutput<Flavor>` at the end of `prove`. -/
structure OinkProverOutput (FF Poly : Type) where
  proving_key : ProvingKey FF Poly
  relation_parameters : RelationParameters FF
  alphas : List FF
  deriving DecidableEq, Repr

/-- Ways in which a run stops without returning. -/
inductive Fault where
  | assertion_failed
  | index_out_of_range
  deriving DecidableEq, Repr

section Rounds

variable {FF Poly Comm : Type}

/-- The call `transcript->send_to_verifier(label, value)`. -/
def send_to_verifier (label : String) (value : Message FF Comm)
    (s : OinkProver FF Poly Comm) : OinkProver FF Poly Comm :=
  { s with trace := s.trace ++ [Call.send_to_verifier label value] }

/-- The call `transcript->get_challenges<FF>(labels...)`: the batch of values, by position. -/
def get_challenges (env : Collaborators FF Poly Comm) (labels : List String)
    (s : OinkProver FF Poly Comm) : (Nat → FF) × OinkProver FF Poly Comm :=
  (env.challenge (transcript_log s.trace) labels,
   { s with trace := s.trace ++ [Call.get_challenges labels] })

/-- The call `transcript->get_challenge<FF>(label)`. -/
def get_challenge (env : Collaborators FF Poly Comm) (label : String)
    (s : OinkProver FF Poly Comm) : FF × OinkProver FF Poly Comm :=
  (env.challenge (transcript_log s.trace) [label] 0,
   { s with trace := s.trace ++ [Call.get_challenge label] })

/-- The call `commitment_key->commit(polynomial)`. -/
def commit (env : Collaborators FF Poly Comm) (polynomial : Poly)
    (s : OinkProver FF Poly Comm) : Comm × OinkProver FF Poly Comm :=
  (env.commit polynomial, { s with trace := s.trace ++ [Call.commit polynomial] })

/-- Modelled from the spec: the `ASSERT` macro, defined outside the translated sources; a
violated precondition is a fatal assertion failure that aborts the run on the spot. -/
def ASSERT (condition : Bool) (s : OinkProver FF Poly Comm) :
    Except (Fault × OinkProver FF Poly Comm) (OinkProver FF Poly Comm) :=
  if condition then .ok s else .error (Fault.assertion_failed, s)

/-- The loop `for (size_t i = 0; i < num_public_inputs; ++i)` of the preamble, with
`remaining` iterations still to run from index `i`. -/
def send_public_inputs : (remaining i : Nat) → OinkProver FF Poly Comm →
    Except (Fault × OinkProver FF Poly Comm) (OinkProver FF Poly Comm)
  | 0, _, s => .ok s
  | remaining + 1, i, s =>
    match s.proving_key.public_inputs[i]? with
    | none => .error (Fault.index_out_of_range, s)
    | some public_input_i =>
      send_public_inputs remaining (i + 1)
        (send_to_verifier (s.domain_separator ++ "public_input_" ++ Nat.repr i)
          (Message.field public_input_i) s)

/-- Add circuit size, public input size, and public inputs to transcript. -/
def execute_preamble_round (s : OinkProver FF Poly Comm) :
    Except (Fault × OinkProver FF Poly Comm) (OinkProver FF Poly Comm) :=
  let circuit_size := s.proving_key.circuit_size % 2 ^ 32
  let num_public_inputs := s.proving_key.num_public_inputs % 2 ^ 32
  let s := send_to_verifier (s.domain_separator ++ "circuit_size") (Message.uint32 circuit_size) s
  let s := send_to_verifier (s.domain_separator ++ "public_input_size")
    (Message.uint32 num_public_inputs) s
  let s := send_to_verifier (s.domain_separator ++ "pub_inputs_offset")
    (Message.uint32 (s.proving_key.pub_inputs_offset % 2 ^ 32)) s
  match ASSERT (s.proving_key.num_public_inputs == s.proving_key.public_inputs.length) s with
  | .error e => .error e
  | .ok s => send_public_inputs s.proving_key.num_public_inputs 0 s

/-- The loop `for (size_t idx = 0; idx < 3; ++idx)` over the wire labels and commitments. -/
def send_wires (wire_labels : List String) (wire_comms : List Comm)
    (s : OinkProver FF Poly Comm) : OinkProver FF Poly Comm :=
  ((wire_labels.zip wire_comms).take 3).foldl
    (fun s lc => send_to_verifier (s.domain_separator ++ lc.1) (Message.commitment lc.2) s) s

/-- A loop over `zip_view(commitments, polynomials, labels)`: each commitment slot is
overwritten with the commitment to its polynomial, which is then sent under its label.
Returns the updated slots. -/
def commit_and_send_all (env : Collaborators FF Poly Comm) :
    List Comm → List Poly → List String → OinkProver FF Poly Comm →
    List Comm × OinkProver FF Poly Comm
  | _ :: commitments, polynomial :: polynomials, label :: labels, s =>
    let (commitment, s) := commit env polynomial s
    let s := send_to_verifier (s.domain_separator ++ label) (Message.commitment commitment) s
    let (rest, s) := commit_and_send_all env commitments polynomials labels s
    (commitment :: rest, s)
  | commitments, _, _, s => (commitments, s)

/-- Commit to the wire polynomials, with the exception of the fourth wire; in the Goblin
flavor, also to the ECC op wires and the DataBus columns. -/
def execute_wire_commitments_round (fl : Flavor) (env : Collaborators FF Poly Comm)
    (s : OinkProver FF Poly Comm) : OinkProver FF Poly Comm :=
  let (c, s) := commit env s.proving_key.polynomials.w_l s
  let s := { s with witness_commitments := { s.witness_commitments with w_l := c } }
  let (c, s) := commit env s.proving_key.polynomials.w_r s
  let s := { s with witness_commitments := { s.witness_commitments with w_r := c } }
  let (c, s) := commit env s.proving_key.polynomials.w_o s
  let s := { s with witness_commitments := { s.witness_commitments with w_o := c } }
  let wire_comms := s.witness_commitments.get_wires
  let wire_labels := s.commitment_labels.get_wires
  let s := send_wires wire_labels wire_comms s
  if fl.IsGoblinFlavor then
    let (cs, s) := commit_and_send_all env s.witness_commitments.ecc_op_wires
      s.proving_key.polynomials.ecc_op_wires s.commitment_labels.ecc_op_wires s
    let s := { s with witness_commitments := { s.witness_commitments with ecc_op_wires := cs } }
    let (cs, s) := commit_and_send_all env s.witness_commitments.databus_entities
      s.proving_key.polynomials.databus_entities s.commitment_labels.databus_entities s
    { s with witness_commitments := { s.witness_commitments with databus_entities := cs } }
  else s

/-- Compute sorted witness-table accumulator and commit to the resulting polynomials. -/
def execute_sorted_list_accumulator_round (env : Collaborators FF Poly Comm)
    (s : OinkProver FF Poly Comm) : OinkProver FF Poly Comm :=
  let (challenges, s) := get_challenges env
    [s.domain_separator ++ "eta", s.domain_separator ++ "eta_two",
     s.domain_separator ++ "eta_three"] s
  let s := { s with relation_parameters := { s.relation_parameters with eta := challenges 0 } }
  let s := { s with relation_parameters :=
    { s.relation_parameters with eta_two := challenges 1 } }
  let s := { s with relation_parameters :=
    { s.relation_parameters with eta_three := challenges 2 } }
  let s := { s with
    proving_key := env.add_ram_rom_memory_records_to_wire_4 s.proving_key
      s.relation_parameters.eta s.relation_parameters.eta_two s.relation_parameters.eta_three
    trace := s.trace ++ [Call.add_ram_rom_memory_records_to_wire_4
      s.relation_parameters.eta s.relation_parameters.eta_two s.relation_parameters.eta_three] }
  let (c, s) := commit env s.proving_key.polynomials.lookup_read_counts s
  let s := { s with witness_commitments := { s.witness_commitments with lookup_read_counts := c } }
  let (c, s) := commit env s.proving_key.polynomials.lookup_read_tags s
  let s := { s with witness_commitments := { s.witness_commitments with lookup_read_tags := c } }
  let (c, s) := commit env s.proving_key.polynomials.w_4 s
  let s := { s with witness_commitments := { s.witness_commitments with w_4 := c } }
  let s := send_to_verifier (s.domain_separator ++ s.commitment_labels.lookup_read_counts)
    (Message.commitment s.witness_commitments.lookup_read_counts) s
  let s := send_to_verifier (s.domain_separator ++ s.commitment_labels.lookup_read_tags)
    (Message.commitment s.witness_commitments.lookup_read_tags) s
  send_to_verifier (s.domain_separator ++ s.commitment_labels.w_4)
    (Message.commitment s.witness_commitments.w_4) s

/-- Compute log derivative inverse polynomial and its commitment. -/
def execute_log_derivative_inverse_round (fl : Flavor) (env : Collaborators FF Poly Comm)
    (s : OinkProver FF Poly Comm) : OinkProver FF Poly Comm :=
  let (challenges, s) := get_challenges env
    [s.domain_separator ++ "beta", s.domain_separator ++ "gamma"] s
  let s := { s with relation_parameters := { s.relation_parameters with beta := challenges 0 } }
  let s := { s with relation_parameters := { s.relation_parameters with gamma := challenges 1 } }
  let s := { s with
    proving_key := env.compute_logderivative_inverses s.proving_key s.relation_parameters
    trace := s.trace ++ [Call.compute_logderivative_inverses s.relation_parameters] }
  let (c, s) := commit env s.proving_key.polynomials.lookup_inverses s
  let s := { s with witness_commitments := { s.witness_commitments with lookup_inverses := c } }
  let s := send_to_verifier (s.domain_separator ++ s.commitment_labels.lookup_inverses)
    (Message.commitment s.witness_commitments.lookup_inverses) s
  if fl.IsGoblinFlavor then
    let (c, s) := commit env s.proving_key.polynomials.calldata_inverses s
    let s := { s with witness_commitments := { s.witness_commitments with calldata_inverses := c } }
    let (c, s) := commit env s.proving_key.polynomials.return_data_inverses s
    let s := { s with
      witness_commitments := { s.witness_commitments with return_data_inverses := c } }
    let s := send_to_verifier (s.domain_separator ++ s.commitment_labels.calldata_inverses)
      (Message.commitment s.witness_commitments.calldata_inverses) s
    send_to_verifier (s.domain_separator ++ s.commitment_labels.return_data_inverses)
      (Message.commitment s.witness_commitments.return_data_inverses) s
  else s

/-- Compute permutation and lookup grand product polynomials and their commitments. -/
def execute_grand_product_computation_round (env : Collaborators FF Poly Comm)
    (s : OinkProver FF Poly Comm) : OinkProver FF Poly Comm :=
  let s := { s with
    proving_key := env.compute_grand_product_polynomials s.proving_key s.relation_parameters
    trace := s.trace ++ [Call.compute_grand_product_polynomials s.relation_parameters] }
  let (c, s) := commit env s.proving_key.polynomials.z_perm s
  let s := { s with witness_commitments := { s.witness_commitments with z_perm := c } }
  send_to_verifier (s.domain_separator ++ s.commitment_labels.z_perm)
    (Message.commitment s.witness_commitments.z_perm) s

/-- The loop `for (size_t idx = 0; idx < alphas.size(); idx++)`, with `remaining`
iterations still to run from index `idx`. -/
def alphas_loop (env : Collaborators FF Poly Comm) : (remaining idx : Nat) → List FF →
    OinkProver FF Poly Comm → List FF × OinkProver FF Poly Comm
  | 0, _, alphas, s => (alphas, s)
  | remaining + 1, idx, alphas, s =>
    let (c, s) := get_challenge env (s.domain_separator ++ "alpha_" ++ Nat.repr idx) s
    alphas_loop env remaining (idx + 1) (alphas.set idx c) s

/-- Generate the relation separators: one challenge per entry of `RelationSeparator`. -/
def generate_alphas_round [Inhabited FF] (fl : Flavor) (env : Collaborators FF Poly Comm)
    (s : OinkProver FF Poly Comm) : List FF × OinkProver FF Poly Comm :=
  let alphas : List FF := List.replicate fl.RelationSeparator_size default
  alphas_loop env alphas.length 0 alphas s

/-- Oink Prover function that runs all the rounds. On success returns the output bundle
together with the prover as it is left behind. -/
def prove [Inhabited FF] (fl : Flavor) (env : Collaborators FF Poly Comm)
    (s : OinkProver FF Poly Comm) :
    Except (Fault × OinkProver FF Poly Comm)
      (OinkProverOutput FF Poly × OinkProver FF Poly Comm) :=
  match execute_preamble_round s with
  | .error e => .error e
  | .ok s =>
    let s := execute_wire_commitments_round fl env s
    let s := execute_sorted_list_accumulator_round env s
    let s := execute_log_derivative_inverse_round fl env s
    let s := execute_grand_product_computation_round env s
    let (alphas, s) := generate_alphas_round fl env s
    .ok ({ proving_key := s.proving_key
           relation_parameters := s.relation_parameters
           alphas := alphas }, s)

end Rounds

/-- The number denoted by a string of decimal digits, most significant digit first. -/
def decimal_value (l : List Char) : Nat :=
  l.foldl (fun a c => 10 * a + (c.toNat - 48)) 0

/-- A set of concrete collaborators over `Nat`-valued field elements and commitments and
list-valued polynomials. -/
def sample_collaborators : Collaborators Nat (List Nat) Nat where
  challenge := fun log _ i => 100 * log.length + i
  commit := fun p => p.sum
  add_ram_rom_memory_records_to_wire_4 := fun pk a b c =>
    { pk with polynomials := { pk.polynomials with w_4 := pk.polynomials.w_4 ++ [a, b, c] } }
  compute_logderivative_inverses := fun pk rp =>
    { pk with polynomials := { pk.polynomials with lookup_inverses := [rp.beta, rp.gamma] } }
  compute_grand_product_polynomials := fun pk rp =>
    { pk with polynomials := { pk.polynomials with z_perm := [rp.eta, rp.beta, rp.gamma] } }

/-- A concrete prover with two public inputs, two ECC op wires and one DataBus column. -/
def sample_prover : OinkProver Nat (List Nat) Nat where
  proving_key :=
    { circuit_size := 8, num_public_inputs := 2, pub_inputs_offset := 1, public_inputs := [7, 9]
      polynomials :=
        { w_l := [1], w_r := [2], w_o := [3], w_4 := [4], lookup_read_counts := [5],
          lookup_read_tags := [6], lookup_inverses := [], z_perm := [],
          ecc_op_wires := [[11], [12]], databus_entities := [[21]],
          calldata_inverses := [31], return_data_inverses := [32] } }
  relation_parameters := { eta := 0, eta_two := 0, eta_three := 0, beta := 0, gamma := 0 }
  witness_commitments :=
    { w_l := 0, w_r := 0, w_o := 0, w_4 := 0, lookup_read_counts := 0, lookup_read_tags := 0,
      lookup_inverses := 0, z_perm := 0, ecc_op_wires := [0, 0], databus_entities := [0],
      calldata_inverses := 0, return_data_inverses := 0 }
  commitment_labels :=
    { w_l := "W_L", w_r := "W_R", w_o := "W_O", w_4 := "W_4",
      lookup_read_counts := "LOOKUP_READ_COUNTS", lookup_read_tags := "LOOKUP_READ_TAGS",
      lookup_inverses := "LOOKUP_INVERSES", z_perm := "Z_PERM",
      ecc_op_wires := ["ECC_OP_WIRE_1", "ECC_OP_WIRE_2"], databus_entities := ["CALLDATA"],
      calldata_inverses := "CALLDATA_INVERSES", return_data_inverses := "RETURN_DATA_INVERSES" }
  domain_separator := "p_"
  trace := []

/-- The sample prover with a declared public-input count that its storage does not match. -/
def sample_prover_mismatch : OinkProver Nat (List Nat) Nat :=
  { sample_prover with
    proving_key := { sample_prover.proving_key with num_public_inputs := 3 } }

/-- The sample collaborators with a different commitment key; everything else is unchanged. -/
def sample_collaborators_shifted : Collaborators Nat (List Nat) Nat :=
  { sample_collaborators with commit := fun p => p.sum + 1000 }

/-- Every commitment computed in `l` is sent later in `l`. -/
def Settled {FF Poly Comm : Type} (env : Collaborators FF Poly Comm)
    (l : List (Call FF Poly Comm)) : Prop :=
  ∀ a p b, l = a ++ Call.commit p :: b →
    ∃ label, Call.send_to_verifier label (Message.commitment (env.commit p)) ∈ b

/-- At every challenge request of `l`, every commitment computed so far has been sent. -/
def Ordered {FF Poly Comm : Type} (env : Collaborators FF Poly Comm)
    (l : List (Call FF Poly Comm)) : Prop :=
  ∀ pre c post, l = pre ++ c :: post → c.is_challenge_request = true → Settled env pre

/-! ## Generated AVM relations

Shallow embeddings of `relations/generated/avm/powers.hpp` and
`relations/generated/avm/range_check_da_gas_hi.hpp`. The entity values, the accumulators
and the scaling factor are elements of one commutative ring `FF`; a `View` of a value is
the value itself. -/

namespace Avm_vm

/-- The row of the `powers` relation. -/
structure PowersRow (FF : Type) where
  powers_power_of_2 : FF
  deriving DecidableEq, Repr

/-- The container over the subrelations of `powers`: a tuple with the one accumulator that
`std::get<0>` addresses. -/
structure PowersContainerOverSubrelations (FF : Type) where
  get_0 : FF
  deriving DecidableEq, Repr

/-- The value of `powersImpl::SUBRELATION_PARTIAL_LENGTHS`. -/
def powersImpl.SUBRELATION_PARTIAL_LENGTHS : List Nat := [2]

/-- The body of `powersImpl::accumulate`: `tmp = v - v`, `tmp *= scaling_factor`, then
`std::get<0>(evals) += View(tmp)`. The relation parameters are not read. -/
def powersImpl.accumulate {FF : Type} [CommRing FF] (evals : PowersContainerOverSubrelations FF)
    (new_term : PowersRow FF) (_params : RelationParameters FF) (scaling_factor : FF) :
    PowersContainerOverSubrelations FF :=
  let tmp := new_term.powers_power_of_2 - new_term.powers_power_of_2
  let tmp := tmp * scaling_factor
  { evals with get_0 := evals.get_0 + tmp }

/-- The function `powers::get_subrelation_label`: the switch has no case, so every index
falls through to `std::to_string(index)`. -/
def powers.get_subrelation_label (index : Nat) : String :=
  match index with
  | _ => Nat.repr index

/-- The entities that `range_check_da_gas_hi_lookup_settings` reads from a row. -/
structure AllEntities (FF : Type) where
  range_check_da_gas_hi : FF
  range_check_da_gas_hi_counts : FF
  main_sel_gas_accounting_active : FF
  main_sel_rng_16 : FF
  main_abs_da_rem_gas_hi : FF
  main_clk : FF
  deriving DecidableEq, Repr

namespace range_check_da_gas_hi_lookup_settings

def READ_TERMS : Nat := 1

def WRITE_TERMS : Nat := 1

def READ_TERM_TYPES : List Nat := [0]

def WRITE_TERM_TYPES : List Nat := [0]

def LOOKUP_TUPLE_SIZE : Nat := 1

def INVERSE_EXISTS_POLYNOMIAL_DEGREE : Nat := 4

def READ_TERM_DEGREE : Nat := 0

def WRITE_TERM_DEGREE : Nat := 0

/-- Whether the inverse polynomial is computed at a row: one of the two selectors is `1`. -/
def inverse_polynomial_is_computed_at_row {FF : Type} [CommRing FF] [DecidableEq FF]
    (row : AllEntities FF) : Bool :=
  row.main_sel_gas_accounting_active == 1 || row.main_sel_rng_16 == 1

/-- The algebraic expression `is_operation + is_table_entry - is_operation * is_table_entry`. -/
def compute_inverse_exists {FF : Type} [CommRing FF] (row : AllEntities FF) : FF :=
  let is_operation := row.main_sel_gas_accounting_active
  let is_table_entry := row.main_sel_rng_16
  is_operation + is_table_entry - is_operation * is_table_entry

/-- The entities handed out by `get_const_entities` and `get_nonconst_entities`, in order. -/
def get_const_entities {FF : Type} (row : AllEntities FF) : List FF :=
  [row.range_check_da_gas_hi, row.range_check_da_gas_hi_counts,
   row.main_sel_gas_accounting_active, row.main_sel_rng_16, row.main_abs_da_rem_gas_hi,
   row.main_clk]

end range_check_da_gas_hi_lookup_settings

/-- The integers modulo the order of the BN254 scalar group, the values of a row entity. -/
abbrev Fr : Type :=
  ZMod 21888242871839275222246405745257275088548364400416034343698204186575808495617

instance Fr_modulus_gt_one :
    Fact (1 < 21888242871839275222246405745257275088548364400416034343698204186575808495617) :=
  ⟨by decide⟩

/-- A row of `Fr` values with the given two selectors and zeros elsewhere. -/
def selector_row (is_operation is_table_entry : Fr) : AllEntities Fr :=
  { range_check_da_gas_hi := 0, range_check_da_gas_hi_counts := 0,
    main_sel_gas_accounting_active := is_operation, main_sel_rng_16 := is_table_entry,
    main_abs_da_rem_gas_hi := 0, main_clk := 0 }

end Avm_vm

/-- The sample prover with a circuit size that does not fit in 32 bits. -/
def sample_prover_wide : OinkProver Nat (List Nat) Nat :=
  { sample_prover with
    proving_key := { sample_prover.proving_key with circuit_size := 2 ^ 32 + 8 } }

/-- Another prover of the same shape as the sample prover: same domain separator, labels and
public-input count, different circuit size, public inputs and polynomials. -/
def sample_prover_other : OinkProver Nat (List Nat) Nat :=
  { sample_prover with
    proving_key :=
      { circuit_size := 16, num_public_inputs := 2, pub_inputs_offset := 3,
        public_inputs := [40, 41]
        polynomials :=
          { w_l := [9, 9], w_r := [8], w_o := [], w_4 := [7, 7, 7], lookup_read_counts := [6],
            lookup_read_tags := [5, 5], lookup_inverses := [4], z_perm := [3],
            ecc_op_wires := [[2], [1, 1]], databus_entities := [[0, 1, 2]],
            calldata_inverses := [], return_data_inverses := [50] } } }

/-- Other sample collaborators: different challenges, commitments and key mutations. -/
def sample_collaborators_other : Collaborators Nat (List Nat) Nat where
  challenge := fun log labels i => 7 * log.length + 3 * labels.length + i + 1
  commit := fun p => 2 * p.length + p.sum
  add_ram_rom_memory_records_to_wire_4 := fun pk a _ _ =>
    { pk with polynomials := { pk.polynomials with w_4 := a :: pk.polynomials.w_4 } }
  compute_logderivative_inverses := fun pk rp =>
    { pk with polynomials := { pk.polynomials with lookup_inverses := [rp.gamma] } }
  compute_grand_product_polynomials := fun pk rp =>
    { pk with polynomials := { pk.polynomials with z_perm := [rp.beta] } }

/-! ## Decimal labels -/

theorem digitChar_value (m : Nat) (h : m < 10) : (Nat.digitChar m).toNat - 48 = m := by
  interval_cases m <;> rfl

theorem toDigitsCore_acc (fuel : Nat) : ∀ (n : Nat) (ds : List Char),
    Nat.toDigitsCore 10 fuel n ds = Nat.toDigitsCore 10 fuel n [] ++ ds := by
  induction fuel with
  | zero => intro n ds; simp [Nat.toDigitsCore]
  | succ fuel ih =>
    intro n ds
    simp only [Nat.toDigitsCore]
    split
    · simp
    · rw [ih (n / 10) (_ :: ds), ih (n / 10) [_]]
      simp

theorem decimal_value_toDigitsCore (fuel : Nat) : ∀ n : Nat, n < fuel →
    decimal_value (Nat.toDigitsCore 10 fuel n []) = n := by
  induction fuel with
  | zero => intro n h; omega
  | succ fuel ih =>
    intro n h
    simp only [Nat.toDigitsCore]
    split
    · have hn : n < 10 := by omega
      simp [decimal_value, digitChar_value _ (Nat.mod_lt n (by decide : 0 < 10))]
      omega
    · rw [toDigitsCore_acc]
      have hlt : n / 10 < fuel := by omega
      have hrec := ih (n / 10) hlt
      simp only [decimal_value] at hrec ⊢
      rw [List.foldl_append, hrec]
      simp [digitChar_value _ (Nat.mod_lt n (by decide : 0 < 10))]
      omega

theorem decimal_value_repr (n : Nat) : decimal_value (Nat.repr n).data = n := by
  simp only [Nat.repr, Nat.toDigits, List.asString]
  exact decimal_value_toDigitsCore (n + 1) n (Nat.lt_succ_self n)

theorem repr_injective : Function.Injective Nat.repr := by
  intro a b h
  have hv := congrArg (fun s => decimal_value s.data) h
  simpa [decimal_value_repr] using hv

theorem string_append_left_cancel (a b c : String) (h : a ++ b = a ++ c) : b = c := by
  have hd := congrArg String.data h
  simp only [String.data_append] at hd
  exact String.ext (List.append_cancel_left hd)

theorem indexed_label_injective (d name : String) :
    Function.Injective (fun i : Nat => d ++ name ++ Nat.repr i) := by
  intro i j h
  exact repr_injective (string_append_left_cancel _ _ _ h)

/-! ## Loops -/

section Loops

variable {FF Poly Comm : Type}

theorem send_public_inputs_ok : ∀ (remaining i : Nat) (s : OinkProver FF Poly Comm),
    i + remaining = s.proving_key.public_inputs.length →
    send_public_inputs remaining i s = .ok { s with trace := s.trace ++
      ((s.proving_key.public_inputs.drop i).enumFrom i).map (fun p =>
        Call.send_to_verifier (s.domain_separator ++ "public_input_" ++ Nat.repr p.1)
          (Message.field p.2)) } := by
  intro remaining
  induction remaining with
  | zero =>
    intro i s h
    have hi : s.proving_key.public_inputs.length ≤ i := by omega
    simp [send_public_inputs, List.drop_eq_nil_of_le hi]
  | succ r ih =>
    intro i s h
    have hi : i < s.proving_key.public_inputs.length := by omega
    rw [send_public_inputs, List.getElem?_eq_getElem hi]
    simp only
    rw [ih (i + 1) _ (by simpa [send_to_verifier] using (by omega))]
    rw [List.drop_eq_getElem_cons hi]
    simp only [send_to_verifier, List.enumFrom, List.map_cons, List.append_assoc,
      List.singleton_append]

theorem alphas_loop_spec (env : Collaborators FF Poly Comm) : ∀ (remaining idx : Nat)
    (alphas : List FF) (s : OinkProver FF Poly Comm), idx + remaining ≤ alphas.length →
    (alphas_loop env remaining idx alphas s).2 = { s with trace := (s.trace ++
      List.map (fun j => Call.get_challenge (s.domain_separator ++ "alpha_" ++ Nat.repr j))
        (List.range' idx remaining)) } ∧
    (alphas_loop env remaining idx alphas s).1.length = alphas.length ∧
    ∀ j, (alphas_loop env remaining idx alphas s).1[j]? =
      if idx ≤ j ∧ j < idx + remaining then
        some (env.challenge (transcript_log (s.trace ++ (List.range' idx (j - idx)).map (fun j =>
          Call.get_challenge (s.domain_separator ++ "alpha_" ++ Nat.repr j))))
          [s.domain_separator ++ "alpha_" ++ Nat.repr j] 0)
      else alphas[j]? := by
  intro remaining
  induction remaining with
  | zero =>
    intro idx alphas s h
    refine ⟨by simp [alphas_loop], by simp [alphas_loop], ?_⟩
    intro j
    have hno : ¬ (idx ≤ j ∧ j < idx + 0) := by omega
    rw [if_neg hno]
    simp [alphas_loop]
  | succ r ih =>
    intro idx alphas s h
    have hlen : idx + 1 + r ≤ (alphas.set idx (env.challenge (transcript_log s.trace)
        [s.domain_separator ++ "alpha_" ++ Nat.repr idx] 0)).length := by
      simp; omega
    obtain ⟨h1, h2, h3⟩ := ih (idx + 1) _
      { s with trace := s.trace ++
        [Call.get_challenge (s.domain_separator ++ "alpha_" ++ Nat.repr idx)] } hlen
    simp only [alphas_loop, get_challenge]
    refine ⟨?_, ?_, ?_⟩
    · rw [h1]; simp [List.range'_succ]
    · rw [h2]; simp
    · intro j
      rw [h3 j]
      by_cases hj : j = idx
      · subst hj
        have hlt : j < alphas.length := by omega
        simp [hlt]
      · by_cases hin : idx + 1 ≤ j ∧ j < idx + 1 + r
        · have hin2 : idx ≤ j ∧ j < idx + (r + 1) := by omega
          have hsub : j - idx = (j - (idx + 1)) + 1 := by omega
          simp [hin, hin2, hsub, List.range'_succ]
        · have hin2 : ¬ (idx ≤ j ∧ j < idx + (r + 1)) := by omega
          simp [hin, hin2, List.getElem?_set_ne (Ne.symm hj)]

end Loops

/-! ## The rounds, field by field -/

section RoundFacts

variable {FF Poly Comm : Type}

theorem commit_and_send_all_state (env : Collaborators FF Poly Comm) : ∀ (cs : List Comm)
    (ps : List Poly) (ls : List String) (s : OinkProver FF Poly Comm),
    (commit_and_send_all env cs ps ls s).2 = { s with trace := (s.trace ++
      List.flatMap ((ps.zip ls).take cs.length) (fun pl =>
        [Call.commit pl.1,
         Call.send_to_verifier (s.domain_separator ++ pl.2)
           (Message.commitment (env.commit pl.1))])) } := by
  intro cs
  induction cs with
  | nil => intro ps ls s; cases ps <;> cases ls <;> simp [commit_and_send_all]
  | cons c cs ih =>
    intro ps ls s
    cases ps with
    | nil => simp [commit_and_send_all]
    | cons p ps =>
      cases ls with
      | nil => simp [commit_and_send_all]
      | cons l ls =>
        simp only [commit_and_send_all, commit, send_to_verifier]
        rw [ih]
        simp

theorem commit_and_send_all_commitments (env : Collaborators FF Poly Comm) : ∀ (cs : List Comm)
    (ps : List Poly) (ls : List String) (s : OinkProver FF Poly Comm),
    cs.length = ps.length → ps.length = ls.length →
    (commit_and_send_all env cs ps ls s).1 = ps.map env.commit := by
  intro cs
  induction cs with
  | nil => intro ps ls s h1 h2; cases ps <;> cases ls <;> simp_all [commit_and_send_all]
  | cons c cs ih =>
    intro ps ls s h1 h2
    cases ps with
    | nil => simp at h1
    | cons p ps =>
      cases ls with
      | nil => simp at h2
      | cons l ls =>
        simp only [commit_and_send_all, commit, send_to_verifier, List.map_cons]
        rw [ih _ _ _ (by simpa using h1) (by simpa using h2)]

theorem commit_and_send_all_fst (env : Collaborators FF Poly Comm) : ∀ (cs : List Comm)
    (ps : List Poly) (ls : List String) (s t : OinkProver FF Poly Comm),
    (commit_and_send_all env cs ps ls s).1 = (commit_and_send_all env cs ps ls t).1 := by
  intro cs
  induction cs with
  | nil => intro ps ls s t; cases ps <;> cases ls <;> simp [commit_and_send_all]
  | cons c cs ih =>
    intro ps ls s t
    cases ps with
    | nil => simp [commit_and_send_all]
    | cons p ps =>
      cases ls with
      | nil => simp [commit_and_send_all]
      | cons l ls =>
        simp only [commit_and_send_all, commit, send_to_verifier]
        rw [ih ps ls _ t]
        simp only [List.cons.injEq, true_and]
        exact ih ps ls _ _

theorem execute_preamble_round_ok (s : OinkProver FF Poly Comm)
    (h : s.proving_key.num_public_inputs = s.proving_key.public_inputs.length) :
    execute_preamble_round s = .ok { s with trace := (s.trace ++
      [Call.send_to_verifier (s.domain_separator ++ "circuit_size")
         (Message.uint32 (s.proving_key.circuit_size % 2 ^ 32)),
       Call.send_to_verifier (s.domain_separator ++ "public_input_size")
         (Message.uint32 (s.proving_key.num_public_inputs % 2 ^ 32)),
       Call.send_to_verifier (s.domain_separator ++ "pub_inputs_offset")
         (Message.uint32 (s.proving_key.pub_inputs_offset % 2 ^ 32))] ++
      List.map (fun p => Call.send_to_verifier
          (s.domain_separator ++ "public_input_" ++ Nat.repr p.1) (Message.field p.2))
        s.proving_key.public_inputs.enum) } := by
  simp only [execute_preamble_round, ASSERT, send_to_verifier, h, beq_self_eq_true, if_true]
  rw [send_public_inputs_ok _ _ _ (by simp)]
  simp [List.enum]

theorem execute_preamble_round_abort (s : OinkProver FF Poly Comm)
    (h : s.proving_key.num_public_inputs ≠ s.proving_key.public_inputs.length) :
    execute_preamble_round s = .error (Fault.assertion_failed, { s with trace := s.trace ++
      [Call.send_to_verifier (s.domain_separator ++ "circuit_size")
         (Message.uint32 (s.proving_key.circuit_size % 2 ^ 32)),
       Call.send_to_verifier (s.domain_separator ++ "public_input_size")
         (Message.uint32 (s.proving_key.num_public_inputs % 2 ^ 32)),
       Call.send_to_verifier (s.domain_separator ++ "pub_inputs_offset")
         (Message.uint32 (s.proving_key.pub_inputs_offset % 2 ^ 32))] }) := by
  simp [execute_preamble_round, ASSERT, send_to_verifier, h]

theorem execute_wire_commitments_round_ultra (k : Nat) (env : Collaborators FF Poly Comm)
    (s : OinkProver FF Poly Comm) :
    execute_wire_commitments_round ⟨false, k⟩ env s =
      { s with
        witness_commitments := { s.witness_commitments with
          w_l := env.commit s.proving_key.polynomials.w_l
          w_r := env.commit s.proving_key.polynomials.w_r
          w_o := env.commit s.proving_key.polynomials.w_o }
        trace := s.trace ++
          [Call.commit s.proving_key.polynomials.w_l,
           Call.commit s.proving_key.polynomials.w_r,
           Call.commit s.proving_key.polynomials.w_o,
           Call.send_to_verifier (s.domain_separator ++ s.commitment_labels.w_l)
             (Message.commitment (env.commit s.proving_key.polynomials.w_l)),
           Call.send_to_verifier (s.domain_separator ++ s.commitment_labels.w_r)
             (Message.commitment (env.commit s.proving_key.polynomials.w_r)),
           Call.send_to_verifier (s.domain_separator ++ s.commitment_labels.w_o)
             (Message.commitment (env.commit s.proving_key.polynomials.w_o))] } := by
  simp [execute_wire_commitments_round, commit, send_wires, send_to_verifier,
    WitnessCommitments.get_wires, CommitmentLabels.get_wires]

theorem execute_wire_commitments_round_goblin (k : Nat) (env : Collaborators FF Poly Comm)
    (s : OinkProver FF Poly Comm) :
    execute_wire_commitments_round ⟨true, k⟩ env s =
      { s with
        witness_commitments := { s.witness_commitments with
          w_l := env.commit s.proving_key.polynomials.w_l
          w_r := env.commit s.proving_key.polynomials.w_r
          w_o := env.commit s.proving_key.polynomials.w_o
          ecc_op_wires := (commit_and_send_all env s.witness_commitments.ecc_op_wires
            s.proving_key.polynomials.ecc_op_wires s.commitment_labels.ecc_op_wires s).1
          databus_entities := (commit_and_send_all env s.witness_commitments.databus_entities
            s.proving_key.polynomials.databus_entities s.commitment_labels.databus_entities s).1 }
        trace := s.trace ++
          [Call.commit s.proving_key.polynomials.w_l,
           Call.commit s.proving_key.polynomials.w_r,
           Call.commit s.proving_key.polynomials.w_o,
           Call.send_to_verifier (s.domain_separator ++ s.commitment_labels.w_l)
             (Message.commitment (env.commit s.proving_key.polynomials.w_l)),
           Call.send_to_verifier (s.domain_separator ++ s.commitment_labels.w_r)
             (Message.commitment (env.commit s.proving_key.polynomials.w_r)),
           Call.send_to_verifier (s.domain_separator ++ s.commitment_labels.w_o)
             (Message.commitment (env.commit s.proving_key.polynomials.w_o))] ++
          List.flatMap ((s.proving_key.polynomials.ecc_op_wires.zip
              s.commitment_labels.ecc_op_wires).take s.witness_commitments.ecc_op_wires.length)
            (fun pl => [Call.commit pl.1, Call.send_to_verifier (s.domain_separator ++ pl.2)
              (Message.commitment (env.commit pl.1))]) ++
          List.flatMap ((s.proving_key.polynomials.databus_entities.zip
              s.commitment_labels.databus_entities).take
                s.witness_commitments.databus_entities.length)
            (fun pl => [Call.commit pl.1, Call.send_to_verifier (s.domain_separator ++ pl.2)
              (Message.commitment (env.commit pl.1))]) } := by
  simp only [execute_wire_commitments_round, commit, send_wires, send_to_verifier,
    WitnessCommitments.get_wires, CommitmentLabels.get_wires, if_true, List.zip_cons_cons,
    List.take_succ_cons, List.foldl_cons, List.take_zero, List.foldl_nil, List.zip_nil_right]
  simp only [commit_and_send_all_state]
  simp only [List.append_assoc, List.cons_append, List.nil_append]
  congr 2
  · exact commit_and_send_all_fst env _ _ _ _ _
  · exact commit_and_send_all_fst env _ _ _ _ _

theorem wire_round_frame (fl : Flavor) (env : Collaborators FF Poly Comm)
    (s : OinkProver FF Poly Comm) :
    (execute_wire_commitments_round fl env s).proving_key = s.proving_key ∧
    (execute_wire_commitments_round fl env s).relation_parameters = s.relation_parameters ∧
    (execute_wire_commitments_round fl env s).commitment_labels = s.commitment_labels ∧
    (execute_wire_commitments_round fl env s).domain_separator = s.domain_separator := by
  obtain ⟨g, k⟩ := fl
  cases g
  · rw [execute_wire_commitments_round_ultra]; simp
  · rw [execute_wire_commitments_round_goblin]; simp

theorem wire_round_trace (fl : Flavor) (env : Collaborators FF Poly Comm)
    (s : OinkProver FF Poly Comm) :
    (execute_wire_commitments_round fl env s).trace = s.trace ++
      ([Call.commit s.proving_key.polynomials.w_l,
       Call.commit s.proving_key.polynomials.w_r,
       Call.commit s.proving_key.polynomials.w_o,
       Call.send_to_verifier (s.domain_separator ++ s.commitment_labels.w_l)
         (Message.commitment (env.commit s.proving_key.polynomials.w_l)),
       Call.send_to_verifier (s.domain_separator ++ s.commitment_labels.w_r)
         (Message.commitment (env.commit s.proving_key.polynomials.w_r)),
       Call.send_to_verifier (s.domain_separator ++ s.commitment_labels.w_o)
         (Message.commitment (env.commit s.proving_key.polynomials.w_o))] ++
      (if fl.IsGoblinFlavor then
        List.flatMap ((s.proving_key.polynomials.ecc_op_wires.zip
            s.commitment_labels.ecc_op_wires).take s.witness_commitments.ecc_op_wires.length)
          (fun pl => [Call.commit pl.1, Call.send_to_verifier (s.domain_separator ++ pl.2)
            (Message.commitment (env.commit pl.1))]) ++
        List.flatMap ((s.proving_key.polynomials.databus_entities.zip
            s.commitment_labels.databus_entities).take
              s.witness_commitments.databus_entities.length)
          (fun pl => [Call.commit pl.1, Call.send_to_verifier (s.domain_separator ++ pl.2)
            (Message.commitment (env.commit pl.1))])
      else [])) := by
  obtain ⟨g, k⟩ := fl
  cases g
  · rw [execute_wire_commitments_round_ultra]; simp
  · rw [execute_wire_commitments_round_goblin]; simp

theorem wire_round_commitments (fl : Flavor) (env : Collaborators FF Poly Comm)
    (s : OinkProver FF Poly Comm) :
    (execute_wire_commitments_round fl env s).witness_commitments.w_l =
      env.commit s.proving_key.polynomials.w_l ∧
    (execute_wire_commitments_round fl env s).witness_commitments.w_r =
      env.commit s.proving_key.polynomials.w_r ∧
    (execute_wire_commitments_round fl env s).witness_commitments.w_o =
      env.commit s.proving_key.polynomials.w_o ∧
    (execute_wire_commitments_round fl env s).witness_commitments.w_4 =
      s.witness_commitments.w_4 := by
  obtain ⟨g, k⟩ := fl
  cases g
  · rw [execute_wire_commitments_round_ultra]; simp
  · rw [execute_wire_commitments_round_goblin]; simp

theorem sorted_list_round_frame (env : Collaborators FF Poly Comm)
    (s : OinkProver FF Poly Comm) :
    (execute_sorted_list_accumulator_round env s).commitment_labels = s.commitment_labels ∧
    (execute_sorted_list_accumulator_round env s).domain_separator = s.domain_separator := by
  simp [execute_sorted_list_accumulator_round, commit, get_challenges, send_to_verifier]

theorem sorted_list_round_parameters (env : Collaborators FF Poly Comm)
    (s : OinkProver FF Poly Comm) :
    (execute_sorted_list_accumulator_round env s).relation_parameters =
      { s.relation_parameters with
        eta := env.challenge (transcript_log s.trace) [s.domain_separator ++ "eta",
          s.domain_separator ++ "eta_two", s.domain_separator ++ "eta_three"] 0
        eta_two := env.challenge (transcript_log s.trace) [s.domain_separator ++ "eta",
          s.domain_separator ++ "eta_two", s.domain_separator ++ "eta_three"] 1
        eta_three := env.challenge (transcript_log s.trace) [s.domain_separator ++ "eta",
          s.domain_separator ++ "eta_two", s.domain_separator ++ "eta_three"] 2 } := by
  simp [execute_sorted_list_accumulator_round, commit, get_challenges, send_to_verifier]

theorem sorted_list_round_key (env : Collaborators FF Poly Comm)
    (s : OinkProver FF Poly Comm) :
    (execute_sorted_list_accumulator_round env s).proving_key =
      env.add_ram_rom_memory_records_to_wire_4 s.proving_key
        (execute_sorted_list_accumulator_round env s).relation_parameters.eta
        (execute_sorted_list_accumulator_round env s).relation_parameters.eta_two
        (execute_sorted_list_accumulator_round env s).relation_parameters.eta_three := by
  simp [execute_sorted_list_accumulator_round, commit, get_challenges, send_to_verifier]

theorem sorted_list_round_commitments (env : Collaborators FF Poly Comm)
    (s : OinkProver FF Poly Comm) :
    (execute_sorted_list_accumulator_round env s).witness_commitments =
      { s.witness_commitments with
        lookup_read_counts := env.commit (execute_sorted_list_accumulator_round env
          s).proving_key.polynomials.lookup_read_counts
        lookup_read_tags := env.commit (execute_sorted_list_accumulator_round env
          s).proving_key.polynomials.lookup_read_tags
        w_4 := env.commit (execute_sorted_list_accumulator_round env
          s).proving_key.polynomials.w_4 } := by
  simp [execute_sorted_list_accumulator_round, commit, get_challenges, send_to_verifier]

theorem sorted_list_round_trace (env : Collaborators FF Poly Comm)
    (s : OinkProver FF Poly Comm) :
    (execute_sorted_list_accumulator_round env s).trace = s.trace ++
      [Call.get_challenges [s.domain_separator ++ "eta", s.domain_separator ++ "eta_two",
         s.domain_separator ++ "eta_three"],
       Call.add_ram_rom_memory_records_to_wire_4
         (execute_sorted_list_accumulator_round env s).relation_parameters.eta
         (execute_sorted_list_accumulator_round env s).relation_parameters.eta_two
         (execute_sorted_list_accumulator_round env s).relation_parameters.eta_three,
       Call.commit (execute_sorted_list_accumulator_round env
         s).proving_key.polynomials.lookup_read_counts,
       Call.commit (execute_sorted_list_accumulator_round env
         s).proving_key.polynomials.lookup_read_tags,
       Call.commit (execute_sorted_list_accumulator_round env s).proving_key.polynomials.w_4,
       Call.send_to_verifier (s.domain_separator ++ s.commitment_labels.lookup_read_counts)
         (Message.commitment (env.commit (execute_sorted_list_accumulator_round env
           s).proving_key.polynomials.lookup_read_counts)),
       Call.send_to_verifier (s.domain_separator ++ s.commitment_labels.lookup_read_tags)
         (Message.commitment (env.commit (execute_sorted_list_accumulator_round env
           s).proving_key.polynomials.lookup_read_tags)),
       Call.send_to_verifier (s.domain_separator ++ s.commitment_labels.w_4)
         (Message.commitment (env.commit (execute_sorted_list_accumulator_round env
           s).proving_key.polynomials.w_4))] := by
  simp [execute_sorted_list_accumulator_round, commit, get_challenges, send_to_verifier]

theorem inverse_round_frame (fl : Flavor) (env : Collaborators FF Poly Comm)
    (s : OinkProver FF Poly Comm) :
    (execute_log_derivative_inverse_round fl env s).commitment_labels = s.commitment_labels ∧
    (execute_log_derivative_inverse_round fl env s).domain_separator = s.domain_separator := by
  cases hg : fl.IsGoblinFlavor <;>
    simp [execute_log_derivative_inverse_round, commit, get_challenges, send_to_verifier, hg]

theorem inverse_round_parameters (fl : Flavor) (env : Collaborators FF Poly Comm)
    (s : OinkProver FF Poly Comm) :
    (execute_log_derivative_inverse_round fl env s).relation_parameters =
      { s.relation_parameters with
        beta := env.challenge (transcript_log s.trace)
          [s.domain_separator ++ "beta", s.domain_separator ++ "gamma"] 0
        gamma := env.challenge (transcript_log s.trace)
          [s.domain_separator ++ "beta", s.domain_separator ++ "gamma"] 1 } := by
  cases hg : fl.IsGoblinFlavor <;>
    simp [execute_log_derivative_inverse_round, commit, get_challenges, send_to_verifier, hg]

theorem inverse_round_key (fl : Flavor) (env : Collaborators FF Poly Comm)
    (s : OinkProver FF Poly Comm) :
    (execute_log_derivative_inverse_round fl env s).proving_key =
      env.compute_logderivative_inverses s.proving_key
        (execute_log_derivative_inverse_round fl env s).relation_parameters := by
  cases hg : fl.IsGoblinFlavor <;>
    simp [execute_log_derivative_inverse_round, commit, get_challenges, send_to_verifier, hg]

theorem inverse_round_commitments (fl : Flavor) (env : Collaborators FF Poly Comm)
    (s : OinkProver FF Poly Comm) :
    (execute_log_derivative_inverse_round fl env s).witness_commitments =
      { s.witness_commitments with
        lookup_inverses := env.commit (execute_log_derivative_inverse_round fl env
          s).proving_key.polynomials.lookup_inverses
        calldata_inverses := if fl.IsGoblinFlavor then
          env.commit (execute_log_derivative_inverse_round fl env
            s).proving_key.polynomials.calldata_inverses
          else s.witness_commitments.calldata_inverses
        return_data_inverses := if fl.IsGoblinFlavor then
          env.commit (execute_log_derivative_inverse_round fl env
            s).proving_key.polynomials.return_data_inverses
          else s.witness_commitments.return_data_inverses } := by
  cases hg : fl.IsGoblinFlavor <;>
    simp [execute_log_derivative_inverse_round, commit, get_challenges, send_to_verifier, hg]

theorem inverse_round_trace (fl : Flavor) (env : Collaborators FF Poly Comm)
    (s : OinkProver FF Poly Comm) :
    (execute_log_derivative_inverse_round fl env s).trace = s.trace ++
      (Call.get_challenges [s.domain_separator ++ "beta", s.domain_separator ++ "gamma"] ::
      ([Call.compute_logderivative_inverses
         (execute_log_derivative_inverse_round fl env s).relation_parameters,
       Call.commit (execute_log_derivative_inverse_round fl env
         s).proving_key.polynomials.lookup_inverses,
       Call.send_to_verifier (s.domain_separator ++ s.commitment_labels.lookup_inverses)
         (Message.commitment (env.commit (execute_log_derivative_inverse_round fl env
           s).proving_key.polynomials.lookup_inverses))] ++
      (if fl.IsGoblinFlavor then
        [Call.commit (execute_log_derivative_inverse_round fl env
           s).proving_key.polynomials.calldata_inverses,
         Call.commit (execute_log_derivative_inverse_round fl env
           s).proving_key.polynomials.return_data_inverses,
         Call.send_to_verifier (s.domain_separator ++ s.commitment_labels.calldata_inverses)
           (Message.commitment (env.commit (execute_log_derivative_inverse_round fl env
             s).proving_key.polynomials.calldata_inverses)),
         Call.send_to_verifier
           (s.domain_separator ++ s.commitment_labels.return_data_inverses)
           (Message.commitment (env.commit (execute_log_derivative_inverse_round fl env
             s).proving_key.polynomials.return_data_inverses))]
      else []))) := by
  cases hg : fl.IsGoblinFlavor <;>
    simp [execute_log_derivative_inverse_round, commit, get_challenges, send_to_verifier, hg]

theorem grand_product_round_eq (env : Collaborators FF Poly Comm)
    (s : OinkProver FF Poly Comm) :
    execute_grand_product_computation_round env s =
      { s with
        proving_key := env.compute_grand_product_polynomials s.proving_key s.relation_parameters
        witness_commitments := { s.witness_commitments with
          z_perm := env.commit (env.compute_grand_product_polynomials s.proving_key
            s.relation_parameters).polynomials.z_perm }
        trace := s.trace ++
          [Call.compute_grand_product_polynomials s.relation_parameters,
           Call.commit (env.compute_grand_product_polynomials s.proving_key
             s.relation_parameters).polynomials.z_perm,
           Call.send_to_verifier (s.domain_separator ++ s.commitment_labels.z_perm)
             (Message.commitment (env.commit (env.compute_grand_product_polynomials
               s.proving_key s.relation_parameters).polynomials.z_perm))] } := by
  simp [execute_grand_product_computation_round, commit, send_to_verifier]

theorem generate_alphas_round_state [Inhabited FF] (fl : Flavor)
    (env : Collaborators FF Poly Comm) (s : OinkProver FF Poly Comm) :
    (generate_alphas_round fl env s).2 = { s with trace := (s.trace ++
      List.map (fun i => Call.get_challenge (s.domain_separator ++ "alpha_" ++ Nat.repr i))
        (List.range fl.RelationSeparator_size)) } := by
  have h := (alphas_loop_spec env fl.RelationSeparator_size 0
    (List.replicate fl.RelationSeparator_size default) s (by simp)).1
  simp only [generate_alphas_round, List.length_replicate]
  rw [h, List.range_eq_range']

theorem generate_alphas_round_alphas [Inhabited FF] (fl : Flavor)
    (env : Collaborators FF Poly Comm) (s : OinkProver FF Poly Comm) :
    (generate_alphas_round fl env s).1.length = fl.RelationSeparator_size ∧
    ∀ i, i < fl.RelationSeparator_size → (generate_alphas_round fl env s).1[i]? =
      some (env.challenge (transcript_log (s.trace ++
        List.map (fun j => Call.get_challenge (s.domain_separator ++ "alpha_" ++ Nat.repr j))
          (List.range i))) [s.domain_separator ++ "alpha_" ++ Nat.repr i] 0) := by
  obtain ⟨-, h2, h3⟩ := alphas_loop_spec env fl.RelationSeparator_size 0
    (List.replicate fl.RelationSeparator_size default) s (by simp)
  simp only [generate_alphas_round, List.length_replicate]
  refine ⟨by simpa using h2, ?_⟩
  intro i hi
  rw [h3 i, if_pos ⟨Nat.zero_le _, by omega⟩, List.range_eq_range']
  simp

end RoundFacts

/-! ## The whole run -/

section Run

variable {FF Poly Comm : Type}

theorem prove_unfold [Inhabited FF] (fl : Flavor) (env : Collaborators FF Poly Comm)
    (s s1 : OinkProver FF Poly Comm) (h : execute_preamble_round s = .ok s1) :
    prove fl env s = .ok
      ({ proving_key := (execute_grand_product_computation_round env
            (execute_log_derivative_inverse_round fl env
              (execute_sorted_list_accumulator_round env
                (execute_wire_commitments_round fl env s1)))).proving_key
         relation_parameters := (execute_grand_product_computation_round env
            (execute_log_derivative_inverse_round fl env
              (execute_sorted_list_accumulator_round env
                (execute_wire_commitments_round fl env s1)))).relation_parameters
         alphas := (generate_alphas_round fl env (execute_grand_product_computation_round env
            (execute_log_derivative_inverse_round fl env
              (execute_sorted_list_accumulator_round env
                (execute_wire_commitments_round fl env s1))))).1 },
       (generate_alphas_round fl env (execute_grand_product_computation_round env
            (execute_log_derivative_inverse_round fl env
              (execute_sorted_list_accumulator_round env
                (execute_wire_commitments_round fl env s1))))).2) := by
  simp [prove, h, generate_alphas_round_state]

theorem prove_abort [Inhabited FF] (fl : Flavor) (env : Collaborators FF Poly Comm)
    (s : OinkProver FF Poly Comm) (e : Fault × OinkProver FF Poly Comm)
    (h : execute_preamble_round s = .error e) : prove fl env s = .error e := by
  simp [prove, h]

theorem transcript_events_append (a b : List (Call FF Poly Comm)) :
    transcript_events (a ++ b) = transcript_events a ++ transcript_events b := by
  simp [transcript_events]

theorem transcript_log_append (a b : List (Call FF Poly Comm)) :
    transcript_log (a ++ b) = transcript_log a ++ transcript_log b := by
  simp [transcript_log]

theorem filterMap_some {α β : Type} (f : α → β) (l : List α) :
    List.filterMap (fun x => some (f x)) l = List.map f l := by
  induction l with
  | nil => rfl
  | cons a l ih => simp [List.filterMap_cons, ih]

theorem map_enum_fst {α β : Type} (g : Nat → β) (l : List α) :
    List.map (fun p => g p.1) l.enum = List.map g (List.range l.length) := by
  rw [← List.enum_map_fst l, List.map_map]
  rfl

end Run

section Claims

variable {FF Poly Comm : Type}

/-- C1: for the Ultra flavor and a proving key whose declared public-input count matches its
storage, `prove` returns, and the transcript events it appends are exactly: the three
preamble sends, one send per public input in index order, the sends of the first three
wire labels, the eta batch, the sends of read counts, read tags and the fourth wire, the
beta/gamma batch, the sends of the lookup inverses and of `z_perm`, then one single
challenge `alpha_i` per entry of the relation separator, in index order. -/
theorem ultra_transcript_event_log [Inhabited FF] (env : Collaborators FF Poly Comm)
    (s : OinkProver FF Poly Comm) (k : Nat)
    (h : s.proving_key.num_public_inputs = s.proving_key.public_inputs.length) :
    ∃ out s', prove ⟨false, k⟩ env s = .ok (out, s') ∧
      transcript_events s'.trace = transcript_events s.trace ++
        [TranscriptEvent.send (s.domain_separator ++ "circuit_size"),
         TranscriptEvent.send (s.domain_separator ++ "public_input_size"),
         TranscriptEvent.send (s.domain_separator ++ "pub_inputs_offset")] ++
        List.map (fun i => TranscriptEvent.send
            (s.domain_separator ++ "public_input_" ++ Nat.repr i))
          (List.range s.proving_key.public_inputs.length) ++
        [TranscriptEvent.send (s.domain_separator ++ s.commitment_labels.w_l),
         TranscriptEvent.send (s.domain_separator ++ s.commitment_labels.w_r),
         TranscriptEvent.send (s.domain_separator ++ s.commitment_labels.w_o),
         TranscriptEvent.challenge_batch [s.domain_separator ++ "eta",
           s.domain_separator ++ "eta_two", s.domain_separator ++ "eta_three"],
         TranscriptEvent.send (s.domain_separator ++ s.commitment_labels.lookup_read_counts),
         TranscriptEvent.send (s.domain_separator ++ s.commitment_labels.lookup_read_tags),
         TranscriptEvent.send (s.domain_separator ++ s.commitment_labels.w_4),
         TranscriptEvent.challenge_batch [s.domain_separator ++ "beta",
           s.domain_separator ++ "gamma"],
         TranscriptEvent.send (s.domain_separator ++ s.commitment_labels.lookup_inverses),
         TranscriptEvent.send (s.domain_separator ++ s.commitment_labels.z_perm)] ++
        List.map (fun i => TranscriptEvent.challenge
            (s.domain_separator ++ "alpha_" ++ Nat.repr i))
          (List.range k) := by
  refine ⟨_, _, prove_unfold _ env s _ (execute_preamble_round_ok s h), ?_⟩
  rw [generate_alphas_round_state]
  simp only [grand_product_round_eq, inverse_round_trace, inverse_round_frame,
    sorted_list_round_trace, sorted_list_round_frame, wire_round_trace, wire_round_frame,
    transcript_events_append]
  simp only [transcript_events, List.filterMap_append, List.filterMap_map, Function.comp_def,
    Call.transcript_event, filterMap_some, map_enum_fst, List.filterMap_cons,
    List.filterMap_nil, List.append_assoc, List.cons_append, List.nil_append,
    Bool.false_eq_true, if_false]
  rw [map_enum_fst (fun i => TranscriptEvent.send
    (s.domain_separator ++ "public_input_" ++ Nat.repr i))]

theorem ultra_transcript_event_log_witness :
    sample_prover.proving_key.num_public_inputs =
      sample_prover.proving_key.public_inputs.length ∧
    ∃ out s', prove ⟨false, 2⟩ sample_collaborators sample_prover = .ok (out, s') ∧
      transcript_events s'.trace =
        [TranscriptEvent.send "p_circuit_size", TranscriptEvent.send "p_public_input_size",
         TranscriptEvent.send "p_pub_inputs_offset", TranscriptEvent.send "p_public_input_0",
         TranscriptEvent.send "p_public_input_1", TranscriptEvent.send "p_W_L",
         TranscriptEvent.send "p_W_R", TranscriptEvent.send "p_W_O",
         TranscriptEvent.challenge_batch ["p_eta", "p_eta_two", "p_eta_three"],
         TranscriptEvent.send "p_LOOKUP_READ_COUNTS", TranscriptEvent.send "p_LOOKUP_READ_TAGS",
         TranscriptEvent.send "p_W_4", TranscriptEvent.challenge_batch ["p_beta", "p_gamma"],
         TranscriptEvent.send "p_LOOKUP_INVERSES", TranscriptEvent.send "p_Z_PERM",
         TranscriptEvent.challenge "p_alpha_0", TranscriptEvent.challenge "p_alpha_1"] := by
  refine ⟨by decide, ?_⟩
  obtain ⟨out, s', h1, h2⟩ :=
    ultra_transcript_event_log sample_collaborators sample_prover 2 (by decide)
  exact ⟨out, s', h1, h2.trans (by decide)⟩

end Claims

/-! ## Ordering of commitments, sends and challenge requests -/

section Ordering

variable {FF Poly Comm : Type}

theorem settled_nil (env : Collaborators FF Poly Comm) : Settled env [] := by
  intro a p b h
  simp at h

theorem settled_cons_commit (env : Collaborators FF Poly Comm) (p : Poly) (label : String)
    (l : List (Call FF Poly Comm))
    (hs : Call.send_to_verifier label (Message.commitment (env.commit p)) ∈ l)
    (hl : Settled env l) : Settled env (Call.commit p :: l) := by
  intro a q b h
  cases a with
  | nil =>
    simp only [List.nil_append, List.cons.injEq, Call.commit.injEq] at h
    obtain ⟨hp, hb⟩ := h
    subst hp; subst hb
    exact ⟨label, hs⟩
  | cons x a =>
    simp only [List.cons_append, List.cons.injEq] at h
    exact hl a q b h.2

theorem settled_cons_other (env : Collaborators FF Poly Comm) (c : Call FF Poly Comm)
    (l : List (Call FF Poly Comm)) (hc : ∀ p, c ≠ Call.commit p)
    (hl : Settled env l) : Settled env (c :: l) := by
  intro a q b h
  cases a with
  | nil =>
    simp only [List.nil_append, List.cons.injEq] at h
    exact absurd h.1 (hc q)
  | cons x a =>
    simp only [List.cons_append, List.cons.injEq] at h
    exact hl a q b h.2

theorem settled_append (env : Collaborators FF Poly Comm) (l1 l2 : List (Call FF Poly Comm))
    (h1 : Settled env l1) (h2 : Settled env l2) : Settled env (l1 ++ l2) := by
  intro a p b h
  rcases List.append_eq_append_iff.mp h with ⟨t, ht, hb⟩ | ⟨t, ht, hb⟩
  · -- a = l1 ++ t, l2 = t ++ commit p :: b
    exact h2 t p b hb
  · -- l1 = a ++ t, commit p :: b = t ++ l2
    cases t with
    | nil =>
      simp only [List.nil_append] at hb
      exact h2 [] p b (by simpa using hb.symm)
    | cons x t =>
      simp only [List.cons_append, List.cons.injEq] at hb
      obtain ⟨hx, hb⟩ := hb
      subst hx
      obtain ⟨label, hm⟩ := h1 a p t ht
      exact ⟨label, by rw [hb]; exact List.mem_append_left _ hm⟩

theorem settled_of_no_commit (env : Collaborators FF Poly Comm) (l : List (Call FF Poly Comm))
    (h : ∀ c ∈ l, ∀ p, c ≠ Call.commit p) : Settled env l := by
  intro a p b hl
  exact absurd rfl (h (Call.commit p) (by rw [hl]; simp) p)

theorem ordered_of_no_commit (env : Collaborators FF Poly Comm) (l : List (Call FF Poly Comm))
    (h : ∀ c ∈ l, ∀ p, c ≠ Call.commit p) : Ordered env l := by
  intro pre c post hl _
  apply settled_of_no_commit
  intro x hx
  exact h x (by rw [hl]; exact List.mem_append_left _ hx)

theorem ordered_of_no_challenge (env : Collaborators FF Poly Comm)
    (l : List (Call FF Poly Comm)) (h : ∀ c ∈ l, c.is_challenge_request = false) :
    Ordered env l := by
  intro pre c post hl hc
  have hm : c ∈ l := by rw [hl]; simp
  rw [h c hm] at hc
  exact absurd hc (by decide)

theorem ordered_append (env : Collaborators FF Poly Comm) (l1 l2 : List (Call FF Poly Comm))
    (h1 : Ordered env l1) (hs : Settled env l1) (h2 : Ordered env l2) :
    Ordered env (l1 ++ l2) := by
  intro pre c post h hc
  rcases List.append_eq_append_iff.mp h with ⟨t, ht, hb⟩ | ⟨t, ht, hb⟩
  · -- pre = l1 ++ t, l2 = t ++ c :: post
    rw [ht]
    exact settled_append env l1 t hs (h2 t c post hb hc)
  · -- l1 = pre ++ t, c :: post = t ++ l2
    cases t with
    | nil =>
      simp only [List.nil_append] at hb
      simp only [List.append_nil] at ht
      rw [← ht]
      exact hs
    | cons x t =>
      simp only [List.cons_append, List.cons.injEq] at hb
      obtain ⟨hx, -⟩ := hb
      subst hx
      exact h1 pre c t ht hc

theorem prefix_of_split {α : Type} (A B pre post : List α) (c : α)
    (h : A ++ B = pre ++ c :: post) (hc : c ∉ A) : ∃ t, pre = A ++ t := by
  rcases List.append_eq_append_iff.mp h with ⟨t, ht, hb⟩ | ⟨t, ht, hb⟩
  · exact ⟨t, ht⟩
  · cases t with
    | nil => exact ⟨[], by simpa using ht.symm⟩
    | cons x t =>
      simp only [List.cons_append, List.cons.injEq] at hb
      obtain ⟨hx, -⟩ := hb
      subst hx
      exact absurd (by rw [ht]; simp) hc

theorem settled_zip_calls (env : Collaborators FF Poly Comm) (d : String)
    (l : List (Poly × String)) :
    Settled env (List.flatMap l (fun pl =>
      [Call.commit pl.1,
       Call.send_to_verifier (d ++ pl.2) (Message.commitment (env.commit pl.1))])) := by
  induction l with
  | nil => exact settled_nil env
  | cons x l ih =>
    simp only [List.flatMap_cons, List.cons_append, List.nil_append]
    apply settled_cons_commit env _ (d ++ x.2) _ (by simp)
    exact settled_cons_other env _ _ (by intro p hp; cases hp) ih

theorem no_challenge_zip_calls (env : Collaborators FF Poly Comm) (d : String)
    (l : List (Poly × String)) :
    ∀ c : Call FF Poly Comm, c ∈ List.flatMap l (fun pl =>
      [Call.commit pl.1,
       Call.send_to_verifier (d ++ pl.2) (Message.commitment (env.commit pl.1))]) →
      c.is_challenge_request = false := by
  intro c hc
  simp only [List.mem_flatMap, List.mem_cons, List.mem_singleton, List.not_mem_nil,
    or_false] at hc
  obtain ⟨pl, -, h | h⟩ := hc <;> subst h <;> rfl

end Ordering

section Segments

variable {FF Poly Comm : Type}

theorem ordered_cons (env : Collaborators FF Poly Comm) (c0 : Call FF Poly Comm)
    (l : List (Call FF Poly Comm)) (h : ∀ c ∈ l, c.is_challenge_request = false) :
    Ordered env (c0 :: l) := by
  intro pre c post hl hc
  cases pre with
  | nil => exact settled_nil env
  | cons x pre =>
    simp only [List.cons_append, List.cons.injEq] at hl
    have hm : c ∈ l := by rw [hl.2]; simp
    rw [h c hm] at hc
    exact absurd hc (by decide)

/-- The calls appended by the wire-commitments round settle every commitment they compute and
contain no challenge request. -/
theorem wire_round_segment (fl : Flavor) (env : Collaborators FF Poly Comm)
    (s : OinkProver FF Poly Comm) :
    ∃ R, (execute_wire_commitments_round fl env s).trace = s.trace ++ R ∧
      Settled env R ∧ (∀ c ∈ R, c.is_challenge_request = false) ∧
      Call.send_to_verifier (s.domain_separator ++ s.commitment_labels.w_l)
        (Message.commitment (env.commit s.proving_key.polynomials.w_l)) ∈ R ∧
      Call.send_to_verifier (s.domain_separator ++ s.commitment_labels.w_r)
        (Message.commitment (env.commit s.proving_key.polynomials.w_r)) ∈ R ∧
      Call.send_to_verifier (s.domain_separator ++ s.commitment_labels.w_o)
        (Message.commitment (env.commit s.proving_key.polynomials.w_o)) ∈ R := by
  refine ⟨_, wire_round_trace fl env s, ?_, ?_, by simp, by simp, by simp⟩
  · apply settled_append
    · apply settled_cons_commit env _ (s.domain_separator ++ s.commitment_labels.w_l) _ (by simp)
      apply settled_cons_commit env _ (s.domain_separator ++ s.commitment_labels.w_r) _ (by simp)
      apply settled_cons_commit env _ (s.domain_separator ++ s.commitment_labels.w_o) _ (by simp)
      exact settled_of_no_commit env _ (by simp)
    · split
      · exact settled_append env _ _ (settled_zip_calls env _ _) (settled_zip_calls env _ _)
      · exact settled_nil env
  · intro c hc
    rcases List.mem_append.mp hc with hc | hc
    · simp only [List.mem_cons, List.mem_singleton, List.not_mem_nil, or_false] at hc
      rcases hc with h | h | h | h | h | h <;> subst h <;> rfl
    · split at hc
      · rcases List.mem_append.mp hc with hc | hc
        · exact no_challenge_zip_calls env _ _ c hc
        · exact no_challenge_zip_calls env _ _ c hc
      · simp at hc

/-- The sorted-list round opens with the eta batch; what follows settles every commitment it
computes and contains no challenge request. -/
theorem sorted_list_round_segment (env : Collaborators FF Poly Comm)
    (s : OinkProver FF Poly Comm) :
    ∃ T, (execute_sorted_list_accumulator_round env s).trace = s.trace ++
        (Call.get_challenges [s.domain_separator ++ "eta", s.domain_separator ++ "eta_two",
          s.domain_separator ++ "eta_three"] :: T) ∧
      Settled env T ∧ (∀ c ∈ T, c.is_challenge_request = false) := by
  refine ⟨_, sorted_list_round_trace env s, ?_, ?_⟩
  · apply settled_cons_other env _ _ (by intro p hp; cases hp)
    apply settled_cons_commit env _
      (s.domain_separator ++ s.commitment_labels.lookup_read_counts) _ (by simp)
    apply settled_cons_commit env _
      (s.domain_separator ++ s.commitment_labels.lookup_read_tags) _ (by simp)
    apply settled_cons_commit env _ (s.domain_separator ++ s.commitment_labels.w_4) _ (by simp)
    exact settled_of_no_commit env _ (by simp)
  · intro c hc
    simp only [List.mem_cons, List.mem_singleton, List.not_mem_nil, or_false] at hc
    rcases hc with h | h | h | h | h | h | h <;> subst h <;> rfl

/-- The inverse round opens with the beta/gamma batch; what follows settles every commitment
it computes and contains no challenge request. -/
theorem inverse_round_segment (fl : Flavor) (env : Collaborators FF Poly Comm)
    (s : OinkProver FF Poly Comm) :
    ∃ T, (execute_log_derivative_inverse_round fl env s).trace = s.trace ++
        (Call.get_challenges [s.domain_separator ++ "beta", s.domain_separator ++ "gamma"]
          :: T) ∧
      Settled env T ∧ (∀ c ∈ T, c.is_challenge_request = false) := by
  refine ⟨_, inverse_round_trace fl env s, ?_, ?_⟩
  · apply settled_append
    · apply settled_cons_other env _ _ (by intro p hp; cases hp)
      apply settled_cons_commit env _
        (s.domain_separator ++ s.commitment_labels.lookup_inverses) _ (by simp)
      exact settled_of_no_commit env _ (by simp)
    · split
      · apply settled_cons_commit env _
          (s.domain_separator ++ s.commitment_labels.calldata_inverses) _ (by simp)
        apply settled_cons_commit env _
          (s.domain_separator ++ s.commitment_labels.return_data_inverses) _ (by simp)
        exact settled_of_no_commit env _ (by simp)
      · exact settled_nil env
  · intro c hc
    rcases List.mem_append.mp hc with hc | hc
    · simp only [List.mem_cons, List.mem_singleton, List.not_mem_nil, or_false] at hc
      rcases hc with h | h | h <;> subst h <;> rfl
    · split at hc
      · simp only [List.mem_cons, List.mem_singleton, List.not_mem_nil, or_false] at hc
        rcases hc with h | h | h | h <;> subst h <;> rfl
      · simp at hc

/-- The grand-product round settles the commitment it computes and requests no challenge. -/
theorem grand_product_round_segment (env : Collaborators FF Poly Comm)
    (s : OinkProver FF Poly Comm) :
    ∃ R, (execute_grand_product_computation_round env s).trace = s.trace ++ R ∧
      Settled env R ∧ (∀ c ∈ R, c.is_challenge_request = false) ∧
      Call.send_to_verifier (s.domain_separator ++ s.commitment_labels.z_perm)
        (Message.commitment (env.commit (execute_grand_product_computation_round env
          s).proving_key.polynomials.z_perm)) ∈ R := by
  refine ⟨_, by rw [grand_product_round_eq], ?_, ?_, by rw [grand_product_round_eq]; simp⟩
  · apply settled_cons_other env _ _ (by intro p hp; cases hp)
    apply settled_cons_commit env _ (s.domain_separator ++ s.commitment_labels.z_perm) _
      (by simp)
    exact settled_of_no_commit env _ (by simp)
  · intro c hc
    simp only [List.mem_cons, List.mem_singleton, List.not_mem_nil, or_false] at hc
    rcases hc with h | h | h <;> subst h <;> rfl

end Segments

section OrderClaim

variable {FF Poly Comm : Type}

/-- The preamble of a run whose assertion holds appends sends only. -/
theorem preamble_segment (s : OinkProver FF Poly Comm)
    (h : s.proving_key.num_public_inputs = s.proving_key.public_inputs.length) :
    ∃ R, execute_preamble_round s = .ok { s with trace := s.trace ++ R } ∧
      ∀ c ∈ R, ∃ label v, c = Call.send_to_verifier label v := by
  refine ⟨_, by rw [execute_preamble_round_ok s h, List.append_assoc], ?_⟩
  intro c hc
  rcases List.mem_append.mp hc with hc | hc
  · simp only [List.mem_cons, List.mem_singleton, List.not_mem_nil, or_false] at hc
    rcases hc with h | h | h <;> exact ⟨_, _, h⟩
  · obtain ⟨p, -, hp⟩ := List.mem_map.mp hc
    exact ⟨_, _, hp.symm⟩

/-- The ordering facts for a run that gets past the preamble assertion: the eta batch and
every `alpha_i` are requested, the first three wire commitments are sent before the eta
batch, the `z_perm` commitment before every single-challenge request, and at every challenge
request every commitment computed so far has been sent. -/
theorem successful_run_ordering [Inhabited FF] (fl : Flavor)
    (env : Collaborators FF Poly Comm) (s : OinkProver FF Poly Comm)
    (h : s.proving_key.num_public_inputs = s.proving_key.public_inputs.length) :
    ∃ out s' produced, prove fl env s = .ok (out, s') ∧ s'.trace = s.trace ++ produced ∧
      Call.get_challenges [s.domain_separator ++ "eta", s.domain_separator ++ "eta_two",
        s.domain_separator ++ "eta_three"] ∈ produced ∧
      (∀ i, i < fl.RelationSeparator_size →
        Call.get_challenge (s.domain_separator ++ "alpha_" ++ Nat.repr i) ∈ produced) ∧
      (∀ pre post, produced = pre ++ Call.get_challenges [s.domain_separator ++ "eta",
          s.domain_separator ++ "eta_two", s.domain_separator ++ "eta_three"] :: post →
        Call.send_to_verifier (s.domain_separator ++ s.commitment_labels.w_l)
          (Message.commitment (env.commit s.proving_key.polynomials.w_l)) ∈ pre ∧
        Call.send_to_verifier (s.domain_separator ++ s.commitment_labels.w_r)
          (Message.commitment (env.commit s.proving_key.polynomials.w_r)) ∈ pre ∧
        Call.send_to_verifier (s.domain_separator ++ s.commitment_labels.w_o)
          (Message.commitment (env.commit s.proving_key.polynomials.w_o)) ∈ pre) ∧
      (∀ pre label post, produced = pre ++ Call.get_challenge label :: post →
        Call.send_to_verifier (s.domain_separator ++ s.commitment_labels.z_perm)
          (Message.commitment s'.witness_commitments.z_perm) ∈ pre) ∧
      (∀ pre c post, produced = pre ++ c :: post → c.is_challenge_request = true →
        ∀ a p b, pre = a ++ Call.commit p :: b →
          ∃ label, Call.send_to_verifier label (Message.commitment (env.commit p)) ∈ b) := by
  obtain ⟨R1, hR1, hR1s⟩ := preamble_segment s h
  obtain ⟨s1, hs1⟩ : ∃ s1 : OinkProver FF Poly Comm, s1 = { s with trace := s.trace ++ R1 } :=
    ⟨_, rfl⟩
  rw [← hs1] at hR1
  have f1 : s1.domain_separator = s.domain_separator ∧
      s1.commitment_labels = s.commitment_labels ∧ s1.proving_key = s.proving_key ∧
      s1.trace = s.trace ++ R1 := by
    rw [hs1]; exact ⟨rfl, rfl, rfl, rfl⟩
  obtain ⟨R2, hR2, hR2s, hR2n, hwl, hwr, hwo⟩ := wire_round_segment fl env s1
  obtain ⟨s2, hs2⟩ : ∃ s2, s2 = execute_wire_commitments_round fl env s1 := ⟨_, rfl⟩
  have f2 := wire_round_frame fl env s1
  rw [← hs2] at hR2 f2
  obtain ⟨T3, hT3, hT3s, hT3n⟩ := sorted_list_round_segment env s2
  obtain ⟨s3, hs3⟩ : ∃ s3, s3 = execute_sorted_list_accumulator_round env s2 := ⟨_, rfl⟩
  have f3 := sorted_list_round_frame env s2
  rw [← hs3] at hT3 f3
  obtain ⟨T4, hT4, hT4s, hT4n⟩ := inverse_round_segment fl env s3
  obtain ⟨s4, hs4⟩ : ∃ s4, s4 = execute_log_derivative_inverse_round fl env s3 := ⟨_, rfl⟩
  have f4 := inverse_round_frame fl env s3
  rw [← hs4] at hT4 f4
  obtain ⟨R5, hR5, hR5s, hR5n, hz⟩ := grand_product_round_segment env s4
  obtain ⟨s5, hs5⟩ : ∃ s5, s5 = execute_grand_product_computation_round env s4 := ⟨_, rfl⟩
  have f5 : s5.domain_separator = s4.domain_separator := by rw [hs5, grand_product_round_eq]
  rw [← hs5] at hR5 hz
  have hd2 : s2.domain_separator = s.domain_separator := by rw [f2.2.2.2, f1.1]
  have hd3 : s3.domain_separator = s.domain_separator := by rw [f3.2, hd2]
  have hd4 : s4.domain_separator = s.domain_separator := by rw [f4.2, hd3]
  have hd5 : s5.domain_separator = s.domain_separator := by rw [f5, hd4]
  have hl4 : s4.commitment_labels = s.commitment_labels := by
    rw [f4.1, f3.1, f2.2.2.1, f1.2.1]
  rw [hd2] at hT3
  rw [hd3] at hT4
  rw [hd4, hl4] at hz
  have hwz : (generate_alphas_round fl env s5).2.witness_commitments.z_perm =
      env.commit s5.proving_key.polynomials.z_perm := by
    rw [generate_alphas_round_state, hs5, grand_product_round_eq]
  rw [← hwz] at hz
  rw [f1.1, f1.2.1, f1.2.2.1] at hwl hwr hwo
  have hrun := prove_unfold fl env s s1 hR1
  rw [← hs2, ← hs3, ← hs4, ← hs5] at hrun
  have htrace : (generate_alphas_round fl env s5).2.trace = s.trace ++
      (R1 ++ (R2 ++ (Call.get_challenges [s.domain_separator ++ "eta",
        s.domain_separator ++ "eta_two", s.domain_separator ++ "eta_three"] :: (T3 ++
        (Call.get_challenges [s.domain_separator ++ "beta", s.domain_separator ++ "gamma"] ::
        (T4 ++ (R5 ++ List.map (fun i => Call.get_challenge
          (s.domain_separator ++ "alpha_" ++ Nat.repr i))
          (List.range fl.RelationSeparator_size)))))))) := by
    rw [generate_alphas_round_state]
    simp only [hR5, hT4, hT3, hR2, f1.2.2.2, hd5, List.append_assoc, List.cons_append]
  have hR1n : ∀ c ∈ R1, c.is_challenge_request = false := by
    intro c hc
    obtain ⟨label, v, hv⟩ := hR1s c hc
    subst hv; rfl
  have hR1c : ∀ c ∈ R1, ∀ p, c ≠ Call.commit p := by
    intro c hc p hp
    obtain ⟨label, v, hv⟩ := hR1s c hc
    rw [hv] at hp; cases hp
  have hR6c : ∀ c ∈ List.map (fun i => Call.get_challenge
      (s.domain_separator ++ "alpha_" ++ Nat.repr i) : Nat → Call FF Poly Comm)
      (List.range fl.RelationSeparator_size), ∀ p, c ≠ Call.commit p := by
    intro c hc p hp
    obtain ⟨i, -, hi⟩ := List.mem_map.mp hc
    rw [← hi] at hp; cases hp
  refine ⟨_, _, _, hrun, htrace, by simp, ?_, ?_, ?_, ?_⟩
  · intro i hi
    simp only [List.mem_append, List.mem_cons, List.mem_map, List.mem_range]
    exact Or.inr (Or.inr (Or.inr (Or.inr (Or.inr (Or.inr (Or.inr ⟨i, hi, rfl⟩))))))
  · intro pre post hsplit
    rw [← List.append_assoc] at hsplit
    obtain ⟨t, ht⟩ := prefix_of_split _ _ _ _ _ hsplit (by
      intro hm
      rcases List.mem_append.mp hm with hm | hm
      · exact absurd (hR1n _ hm) (by simp [Call.is_challenge_request])
      · exact absurd (hR2n _ hm) (by simp [Call.is_challenge_request]))
    rw [ht]
    simp only [List.mem_append]
    exact ⟨Or.inl (Or.inr hwl), Or.inl (Or.inr hwr), Or.inl (Or.inr hwo)⟩
  · intro pre label post hsplit
    have hre : R1 ++ (R2 ++ (Call.get_challenges [s.domain_separator ++ "eta",
        s.domain_separator ++ "eta_two", s.domain_separator ++ "eta_three"] :: (T3 ++
        (Call.get_challenges [s.domain_separator ++ "beta", s.domain_separator ++ "gamma"] ::
        (T4 ++ (R5 ++ List.map (fun i => Call.get_challenge
          (s.domain_separator ++ "alpha_" ++ Nat.repr i))
          (List.range fl.RelationSeparator_size))))))) =
        (R1 ++ (R2 ++ (Call.get_challenges [s.domain_separator ++ "eta",
        s.domain_separator ++ "eta_two", s.domain_separator ++ "eta_three"] :: (T3 ++
        (Call.get_challenges [s.domain_separator ++ "beta", s.domain_separator ++ "gamma"] ::
        (T4 ++ R5)))))) ++ List.map (fun i => Call.get_challenge
          (s.domain_separator ++ "alpha_" ++ Nat.repr i))
          (List.range fl.RelationSeparator_size) := by
      simp only [List.append_assoc, List.cons_append]
    rw [hre] at hsplit
    obtain ⟨t, ht⟩ := prefix_of_split _ _ _ _ _ hsplit (by
      intro hm
      simp only [List.mem_append, List.mem_cons] at hm
      rcases hm with hm | hm | hm | hm | hm | hm | hm
      · exact absurd (hR1n _ hm) (by simp [Call.is_challenge_request])
      · exact absurd (hR2n _ hm) (by simp [Call.is_challenge_request])
      · cases hm
      · exact absurd (hT3n _ hm) (by simp [Call.is_challenge_request])
      · cases hm
      · exact absurd (hT4n _ hm) (by simp [Call.is_challenge_request])
      · exact absurd (hR5n _ hm) (by simp [Call.is_challenge_request]))
    rw [ht]
    simp only [List.mem_append, List.mem_cons]
    exact Or.inl (Or.inr (Or.inr (Or.inr (Or.inr (Or.inr (Or.inr hz))))))
  · have hord : Ordered env (R1 ++ (R2 ++ (Call.get_challenges [s.domain_separator ++ "eta",
        s.domain_separator ++ "eta_two", s.domain_separator ++ "eta_three"] :: (T3 ++
        (Call.get_challenges [s.domain_separator ++ "beta", s.domain_separator ++ "gamma"] ::
        (T4 ++ (R5 ++ List.map (fun i => Call.get_challenge
          (s.domain_separator ++ "alpha_" ++ Nat.repr i))
          (List.range fl.RelationSeparator_size)))))))) := by
      apply ordered_append env _ _ (ordered_of_no_challenge env _ hR1n)
        (settled_of_no_commit env _ hR1c)
      apply ordered_append env _ _ (ordered_of_no_challenge env _ hR2n) hR2s
      rw [← List.cons_append]
      apply ordered_append env _ _ (ordered_cons env _ _ hT3n)
        (settled_cons_other env _ _ (by intro p hp; cases hp) hT3s)
      rw [← List.cons_append]
      apply ordered_append env _ _ (ordered_cons env _ _ hT4n)
        (settled_cons_other env _ _ (by intro p hp; cases hp) hT4s)
      apply ordered_append env _ _ (ordered_of_no_challenge env _ hR5n) hR5s
      exact ordered_of_no_commit env _ hR6c
    intro pre c post hsplit hc a p b hpre
    exact hord pre c post hsplit hc a p b hpre

end OrderClaim

section Output

variable {FF Poly Comm : Type}

/-- C3 (evaluation of the code): two runs of `prove` on the same prover that differ only in the
commitment key both return, and return the same output bundle, although the witness
commitments computed during their rounds differ; the bundle built by the designated
initialiser holds the proving key, the relation parameters and the alphas only. -/
theorem output_bundle_omits_witness_commitments :
    (prove ⟨false, 2⟩ sample_collaborators sample_prover).toOption.isSome = true ∧
    (prove ⟨false, 2⟩ sample_collaborators sample_prover).toOption.map Prod.fst =
      (prove ⟨false, 2⟩ sample_collaborators_shifted sample_prover).toOption.map Prod.fst ∧
    (prove ⟨false, 2⟩ sample_collaborators sample_prover).toOption.map
        (fun r => r.2.witness_commitments.w_l) = some 1 ∧
    (prove ⟨false, 2⟩ sample_collaborators_shifted sample_prover).toOption.map
        (fun r => r.2.witness_commitments.w_l) = some 1001 := by
  decide

end Output

section Skeleton

variable {FF Poly Comm : Type}

/-- The states between the rounds of a run whose assertion holds, with the parts of the
prover that no round changes. -/
theorem run_states [Inhabited FF] (fl : Flavor) (env : Collaborators FF Poly Comm)
    (s : OinkProver FF Poly Comm)
    (h : s.proving_key.num_public_inputs = s.proving_key.public_inputs.length) :
    ∃ (R1 : List (Call FF Poly Comm)) (s1 s2 s3 s4 s5 : OinkProver FF Poly Comm),
      (∀ c ∈ R1, ∃ label v, c = Call.send_to_verifier label v) ∧
      s1 = { s with trace := s.trace ++ R1 } ∧
      s2 = execute_wire_commitments_round fl env s1 ∧
      s3 = execute_sorted_list_accumulator_round env s2 ∧
      s4 = execute_log_derivative_inverse_round fl env s3 ∧
      s5 = execute_grand_product_computation_round env s4 ∧
      prove fl env s = .ok
        ({ proving_key := s5.proving_key
           relation_parameters := s5.relation_parameters
           alphas := (generate_alphas_round fl env s5).1 },
         (generate_alphas_round fl env s5).2) ∧
      (s2.domain_separator = s.domain_separator ∧ s3.domain_separator = s.domain_separator ∧
        s4.domain_separator = s.domain_separator ∧ s5.domain_separator = s.domain_separator) ∧
      (s2.commitment_labels = s.commitment_labels ∧ s3.commitment_labels = s.commitment_labels ∧
        s4.commitment_labels = s.commitment_labels ∧
        s5.commitment_labels = s.commitment_labels) := by
  obtain ⟨R1, hR1, hR1s⟩ := preamble_segment s h
  have f2 := wire_round_frame fl env { s with trace := s.trace ++ R1 }
  have f3 := sorted_list_round_frame env
    (execute_wire_commitments_round fl env { s with trace := s.trace ++ R1 })
  have f4 := inverse_round_frame fl env (execute_sorted_list_accumulator_round env
    (execute_wire_commitments_round fl env { s with trace := s.trace ++ R1 }))
  refine ⟨R1, _, _, _, _, _, hR1s, rfl, rfl, rfl, rfl, rfl, prove_unfold fl env s _ hR1, ?_, ?_⟩
  · refine ⟨f2.2.2.2, ?_, ?_, ?_⟩
    · rw [f3.2, f2.2.2.2]
    · rw [f4.2, f3.2, f2.2.2.2]
    · rw [grand_product_round_eq]; simp only; rw [f4.2, f3.2, f2.2.2.2]
  · refine ⟨f2.2.2.1, ?_, ?_, ?_⟩
    · rw [f3.1, f2.2.2.1]
    · rw [f4.1, f3.1, f2.2.2.1]
    · rw [grand_product_round_eq]; simp only; rw [f4.1, f3.1, f2.2.2.1]

theorem mem_transcript_log (l : List (Call FF Poly Comm)) (c : Call FF Poly Comm)
    (h : c ∈ transcript_log l) : c ∈ l := by
  simp only [transcript_log, List.mem_filter] at h
  exact h.1

end Skeleton

section Parameters

variable {FF Poly Comm : Type}

/-- C4: in every run of `prove` that gets past the preamble assertion, the transcript sees
exactly one eta batch and, later, exactly one beta/gamma batch; the output's `eta`,
`eta_two`, `eta_three` are the first, second and third value the transcript returns for
the eta batch, and its `beta`, `gamma` are the first and second value it returns for the
beta/gamma batch. -/
theorem relation_parameters_from_batches [Inhabited FF] (fl : Flavor)
    (env : Collaborators FF Poly Comm) (s : OinkProver FF Poly Comm)
    (h : s.proving_key.num_public_inputs = s.proving_key.public_inputs.length) :
    ∃ out s' pre mid post, prove fl env s = .ok (out, s') ∧
      transcript_log s'.trace = transcript_log s.trace ++ pre ++
        [Call.get_challenges [s.domain_separator ++ "eta", s.domain_separator ++ "eta_two",
          s.domain_separator ++ "eta_three"]] ++ mid ++
        [Call.get_challenges [s.domain_separator ++ "beta", s.domain_separator ++ "gamma"]] ++
        post ∧
      (∀ c ∈ pre ++ mid ++ post, ∀ labels, c ≠ Call.get_challenges labels) ∧
      out.relation_parameters.eta = env.challenge (transcript_log s.trace ++ pre)
        [s.domain_separator ++ "eta", s.domain_separator ++ "eta_two",
          s.domain_separator ++ "eta_three"] 0 ∧
      out.relation_parameters.eta_two = env.challenge (transcript_log s.trace ++ pre)
        [s.domain_separator ++ "eta", s.domain_separator ++ "eta_two",
          s.domain_separator ++ "eta_three"] 1 ∧
      out.relation_parameters.eta_three = env.challenge (transcript_log s.trace ++ pre)
        [s.domain_separator ++ "eta", s.domain_separator ++ "eta_two",
          s.domain_separator ++ "eta_three"] 2 ∧
      out.relation_parameters.beta = env.challenge (transcript_log s.trace ++ pre ++
          [Call.get_challenges [s.domain_separator ++ "eta", s.domain_separator ++ "eta_two",
            s.domain_separator ++ "eta_three"]] ++ mid)
        [s.domain_separator ++ "beta", s.domain_separator ++ "gamma"] 0 ∧
      out.relation_parameters.gamma = env.challenge (transcript_log s.trace ++ pre ++
          [Call.get_challenges [s.domain_separator ++ "eta", s.domain_separator ++ "eta_two",
            s.domain_separator ++ "eta_three"]] ++ mid)
        [s.domain_separator ++ "beta", s.domain_separator ++ "gamma"] 1 := by
  obtain ⟨R1, s1, s2, s3, s4, s5, hR1s, hs1, hs2, hs3, hs4, hs5, hrun, hd, hl⟩ :=
    run_states fl env s h
  obtain ⟨R2, hR2, -, hR2n, -⟩ := wire_round_segment fl env s1
  obtain ⟨T3, hT3, -, hT3n⟩ := sorted_list_round_segment env s2
  obtain ⟨T4, hT4, -, hT4n⟩ := inverse_round_segment fl env s3
  obtain ⟨R5, hR5, -, hR5n, -⟩ := grand_product_round_segment env s4
  have hp3 := sorted_list_round_parameters env s2
  have hp4 := inverse_round_parameters fl env s3
  have hp5 : s5.relation_parameters = s4.relation_parameters := by
    rw [hs5, grand_product_round_eq]
  rw [← hs2] at hR2
  rw [← hs3, hd.1] at hT3 hp3
  rw [← hs4, hd.2.1] at hT4 hp4
  rw [← hs5] at hR5
  have ht1 : s1.trace = s.trace ++ R1 := by rw [hs1]
  have hR1n : ∀ c ∈ R1, c.is_challenge_request = false := by
    intro c hc
    obtain ⟨label, v, hv⟩ := hR1s c hc
    subst hv; rfl
  have hlog2 : transcript_log s2.trace =
      transcript_log s.trace ++ transcript_log (R1 ++ R2) := by
    rw [hR2, ht1, List.append_assoc, transcript_log_append]
  have hlog3 : transcript_log s3.trace = transcript_log s.trace ++ transcript_log (R1 ++ R2) ++
      [Call.get_challenges [s.domain_separator ++ "eta", s.domain_separator ++ "eta_two",
        s.domain_separator ++ "eta_three"]] ++ transcript_log T3 := by
    rw [hT3, transcript_log_append, hlog2]
    simp [transcript_log, Call.is_transcript_call]
  have hnb : ∀ (l : List (Call FF Poly Comm)), (∀ c ∈ l, c.is_challenge_request = false) →
      ∀ c ∈ transcript_log l, ∀ labels, c ≠ Call.get_challenges labels := by
    intro l hl c hc labels hcl
    have hf := hl c (mem_transcript_log l c hc)
    rw [hcl] at hf
    exact absurd hf (by simp [Call.is_challenge_request])
  refine ⟨_, _, transcript_log (R1 ++ R2), transcript_log T3,
    transcript_log (T4 ++ (R5 ++ List.map (fun i => Call.get_challenge
      (s.domain_separator ++ "alpha_" ++ Nat.repr i)) (List.range fl.RelationSeparator_size))),
    hrun, ?_, ?_, ?_, ?_, ?_, ?_, ?_⟩
  · rw [generate_alphas_round_state]
    simp only [hd.2.2.2]
    rw [transcript_log_append, hR5, transcript_log_append, hT4, transcript_log_append, hlog3]
    simp [transcript_log, Call.is_transcript_call]
  · intro c hc labels
    simp only [List.mem_append] at hc
    rcases hc with (hc | hc) | hc
    · refine hnb _ ?_ c hc labels
      intro x hx
      rcases List.mem_append.mp hx with hx | hx
      · exact hR1n x hx
      · exact hR2n x hx
    · exact hnb _ hT3n c hc labels
    · have hm := mem_transcript_log _ c hc
      simp only [List.mem_append, List.mem_map] at hm
      rcases hm with hm | hm | ⟨i, -, hi⟩
      · intro hcl
        have hf := hT4n c hm
        rw [hcl] at hf
        exact absurd hf (by simp [Call.is_challenge_request])
      · intro hcl
        have hf := hR5n c hm
        rw [hcl] at hf
        exact absurd hf (by simp [Call.is_challenge_request])
      · intro hcl
        rw [← hi] at hcl
        cases hcl
  · show s5.relation_parameters.eta = _
    rw [hp5, hp4, hp3, hlog2]
  · show s5.relation_parameters.eta_two = _
    rw [hp5, hp4, hp3, hlog2]
  · show s5.relation_parameters.eta_three = _
    rw [hp5, hp4, hp3, hlog2]
  · show s5.relation_parameters.beta = _
    rw [hp5, hp4, hlog3]
  · show s5.relation_parameters.gamma = _
    rw [hp5, hp4, hlog3]

theorem relation_parameters_from_batches_witness :
    sample_prover.proving_key.num_public_inputs =
      sample_prover.proving_key.public_inputs.length ∧
    ∃ out s' pre mid post, prove ⟨true, 2⟩ sample_collaborators sample_prover = .ok (out, s') ∧
      transcript_log s'.trace = transcript_log sample_prover.trace ++ pre ++
        [Call.get_challenges ["p_eta", "p_eta_two",
          "p_eta_three"]] ++ mid ++
        [Call.get_challenges ["p_beta", "p_gamma"]] ++
        post ∧
      (∀ c ∈ pre ++ mid ++ post, ∀ labels, c ≠ Call.get_challenges labels) ∧
      out.relation_parameters.eta = sample_collaborators.challenge (transcript_log
        sample_prover.trace ++ pre)
        ["p_eta", "p_eta_two",
          "p_eta_three"] 0 ∧
      out.relation_parameters.eta_two = sample_collaborators.challenge (transcript_log
        sample_prover.trace ++ pre)
        ["p_eta", "p_eta_two",
          "p_eta_three"] 1 ∧
      out.relation_parameters.eta_three = sample_collaborators.challenge (transcript_log
        sample_prover.trace ++ pre)
        ["p_eta", "p_eta_two",
          "p_eta_three"] 2 ∧
      out.relation_parameters.beta = sample_collaborators.challenge (transcript_log
        sample_prover.trace ++ pre ++
          [Call.get_challenges ["p_eta", "p_eta_two",
            "p_eta_three"]] ++ mid)
        ["p_beta", "p_gamma"] 0 ∧
      out.relation_parameters.gamma = sample_collaborators.challenge (transcript_log
        sample_prover.trace ++ pre ++
          [Call.get_challenges ["p_eta", "p_eta_two",
            "p_eta_three"]] ++ mid)
        ["p_beta", "p_gamma"] 1 :=
  ⟨by decide, relation_parameters_from_batches ⟨true, 2⟩ sample_collaborators sample_prover
    (by decide)⟩

end Parameters

section Alphas

variable {FF Poly Comm : Type}

/-- C5: for a relation separator of size `k`, `generate_alphas_round` appends exactly `k`
single-challenge requests to the calls made so far, the `i`-th under the label
`domain_separator + "alpha_" + decimal(i)` in increasing order of `i`, and changes nothing
else in the prover; the returned `alphas` has `k` entries, the `i`-th being the transcript's
response to the `i`-th request; and the `k` labels are pairwise distinct. -/
theorem alphas_round_requests [Inhabited FF] (fl : Flavor) (env : Collaborators FF Poly Comm)
    (s : OinkProver FF Poly Comm) :
    (generate_alphas_round fl env s).2 = { s with trace := (s.trace ++
      List.map (fun i => Call.get_challenge (s.domain_separator ++ "alpha_" ++ Nat.repr i))
        (List.range fl.RelationSeparator_size)) } ∧
    (generate_alphas_round fl env s).1 =
      List.map (fun i => env.challenge (transcript_log (s.trace ++
          List.map (fun j => Call.get_challenge (s.domain_separator ++ "alpha_" ++ Nat.repr j))
            (List.range i))) [s.domain_separator ++ "alpha_" ++ Nat.repr i] 0)
        (List.range fl.RelationSeparator_size) ∧
    (generate_alphas_round fl env s).1.length = fl.RelationSeparator_size ∧
    List.Nodup (List.map (fun i => s.domain_separator ++ "alpha_" ++ Nat.repr i)
      (List.range fl.RelationSeparator_size)) := by
  obtain ⟨hlen, hget⟩ := generate_alphas_round_alphas fl env s
  refine ⟨generate_alphas_round_state fl env s, ?_, hlen, ?_⟩
  · apply List.ext_getElem?
    intro i
    by_cases hi : i < fl.RelationSeparator_size
    · rw [hget i hi]
      simp [List.getElem?_map, List.getElem?_range hi]
    · have h1 : (generate_alphas_round fl env s).1.length ≤ i := by omega
      rw [List.getElem?_eq_none h1, List.getElem?_eq_none (by simpa using Nat.le_of_not_lt hi)]
  · exact List.Nodup.map (indexed_label_injective s.domain_separator "alpha_")
      (List.nodup_range _)

end Alphas

section Preamble

variable {FF Poly Comm : Type}

/-- C6: `execute_preamble_round`, and hence `prove`, stops with a fault if and only if the
declared public-input count differs from the size of the public-input storage; the fault is
then the assertion failure, raised after the three size messages and before anything else:
the calls made are exactly the sends of circuit size, public-input count and offset (no
public input, no commitment, no challenge), the rest of the prover is untouched, and
`prove` returns no output bundle. -/
theorem preamble_assertion_failure [Inhabited FF] (fl : Flavor)
    (env : Collaborators FF Poly Comm) (s : OinkProver FF Poly Comm) :
    ((∃ e, execute_preamble_round s = .error e) ↔
      s.proving_key.num_public_inputs ≠ s.proving_key.public_inputs.length) ∧
    ((∃ e, prove fl env s = .error e) ↔
      s.proving_key.num_public_inputs ≠ s.proving_key.public_inputs.length) ∧
    (s.proving_key.num_public_inputs ≠ s.proving_key.public_inputs.length →
      execute_preamble_round s = .error (Fault.assertion_failed,
        { s with trace := s.trace ++
          [Call.send_to_verifier (s.domain_separator ++ "circuit_size")
             (Message.uint32 (s.proving_key.circuit_size % 2 ^ 32)),
           Call.send_to_verifier (s.domain_separator ++ "public_input_size")
             (Message.uint32 (s.proving_key.num_public_inputs % 2 ^ 32)),
           Call.send_to_verifier (s.domain_separator ++ "pub_inputs_offset")
             (Message.uint32 (s.proving_key.pub_inputs_offset % 2 ^ 32))] }) ∧
      prove fl env s = .error (Fault.assertion_failed,
        { s with trace := s.trace ++
          [Call.send_to_verifier (s.domain_separator ++ "circuit_size")
             (Message.uint32 (s.proving_key.circuit_size % 2 ^ 32)),
           Call.send_to_verifier (s.domain_separator ++ "public_input_size")
             (Message.uint32 (s.proving_key.num_public_inputs % 2 ^ 32)),
           Call.send_to_verifier (s.domain_separator ++ "pub_inputs_offset")
             (Message.uint32 (s.proving_key.pub_inputs_offset % 2 ^ 32))] })) := by
  refine ⟨?_, ?_, ?_⟩
  · constructor
    · rintro ⟨e, he⟩ heq
      rw [execute_preamble_round_ok s heq] at he
      cases he
    · intro hne
      exact ⟨_, execute_preamble_round_abort s hne⟩
  · constructor
    · rintro ⟨e, he⟩ heq
      rw [prove_unfold fl env s _ (execute_preamble_round_ok s heq)] at he
      cases he
    · intro hne
      exact ⟨_, prove_abort fl env s _ (execute_preamble_round_abort s hne)⟩
  · intro hne
    exact ⟨execute_preamble_round_abort s hne,
      prove_abort fl env s _ (execute_preamble_round_abort s hne)⟩

theorem preamble_assertion_failure_witness :
    prove ⟨true, 2⟩ sample_collaborators sample_prover_mismatch =
      .error (Fault.assertion_failed,
        { sample_prover_mismatch with trace :=
          [Call.send_to_verifier "p_circuit_size" (Message.uint32 8),
           Call.send_to_verifier "p_public_input_size" (Message.uint32 3),
           Call.send_to_verifier "p_pub_inputs_offset" (Message.uint32 1)] }) :=
  ((preamble_assertion_failure ⟨true, 2⟩ sample_collaborators sample_prover_mismatch).2.2
    (by decide)).2

/-- C7: for a proving key whose declared public-input count `n` matches its storage,
`execute_preamble_round` returns, changing nothing in the prover but the calls made, to
which it appends exactly `3 + n` sends and no challenge request: circuit size, public-input
count and public-inputs offset (the 32-bit casts of the key's fields), in that order, then
for each `i < n` the field element `public_inputs[i]` under the label
`domain_separator + "public_input_" + decimal(i)`, in index order. -/
theorem preamble_round_messages (s : OinkProver FF Poly Comm)
    (h : s.proving_key.num_public_inputs = s.proving_key.public_inputs.length) :
    ∃ msgs, execute_preamble_round s = .ok { s with trace := s.trace ++ msgs } ∧
      msgs.length = 3 + s.proving_key.num_public_inputs ∧
      (∀ c ∈ msgs, ∃ label v, c = Call.send_to_verifier label v) ∧
      msgs.take 3 =
        [Call.send_to_verifier (s.domain_separator ++ "circuit_size")
           (Message.uint32 (s.proving_key.circuit_size % 2 ^ 32)),
         Call.send_to_verifier (s.domain_separator ++ "public_input_size")
           (Message.uint32 (s.proving_key.num_public_inputs % 2 ^ 32)),
         Call.send_to_verifier (s.domain_separator ++ "pub_inputs_offset")
           (Message.uint32 (s.proving_key.pub_inputs_offset % 2 ^ 32))] ∧
      ∀ (i : Nat) (hi : i < s.proving_key.public_inputs.length),
        msgs[3 + i]? = some (Call.send_to_verifier
          (s.domain_separator ++ "public_input_" ++ Nat.repr i)
          (Message.field s.proving_key.public_inputs[i])) := by
  refine ⟨_, by rw [execute_preamble_round_ok s h, List.append_assoc], ?_, ?_, ?_, ?_⟩
  · simp only [h, List.enum, List.length_append, List.length_cons, List.length_nil,
      List.length_map, List.enumFrom_length]
  · intro c hc
    rcases List.mem_append.mp hc with hc | hc
    · simp only [List.mem_cons, List.mem_singleton, List.not_mem_nil, or_false] at hc
      rcases hc with h | h | h <;> exact ⟨_, _, h⟩
    · obtain ⟨p, -, hp⟩ := List.mem_map.mp hc
      exact ⟨_, _, hp.symm⟩
  · simp
  · intro i hi
    rw [List.getElem?_append_right (by simp)]
    simp [List.enum, List.getElem?_map, List.getElem?_enumFrom, hi]

theorem preamble_round_messages_witness :
    sample_prover.proving_key.num_public_inputs =
      sample_prover.proving_key.public_inputs.length ∧
    ∃ msgs, execute_preamble_round sample_prover =
        .ok { sample_prover with trace := sample_prover.trace ++ msgs } ∧
      msgs.length = 3 + 2 ∧
      (∀ c ∈ msgs, ∃ label v, c = Call.send_to_verifier label v) ∧
      msgs.take 3 =
        [Call.send_to_verifier "p_circuit_size" (Message.uint32 8),
         Call.send_to_verifier "p_public_input_size" (Message.uint32 2),
         Call.send_to_verifier "p_pub_inputs_offset" (Message.uint32 1)] ∧
      msgs[3 + 0]? = some (Call.send_to_verifier "p_public_input_0" (Message.field 7)) ∧
      msgs[3 + 1]? = some (Call.send_to_verifier "p_public_input_1" (Message.field 9)) := by
  refine ⟨by decide, ?_⟩
  obtain ⟨msgs, h1, h2, h3, h4, h5⟩ := preamble_round_messages sample_prover (by decide)
  exact ⟨msgs, h1, h2, h3, h4, h5 0 (by decide), h5 1 (by decide)⟩

end Preamble

section FourthWire

variable {FF Poly Comm : Type}

/-- C8: the wire-commitments round leaves the proving key and the `w_4` commitment slot
untouched, requests no challenge, commits only polynomials among `w_l`, `w_r`, `w_o` (and,
in the Goblin flavor, the ECC op wires and DataBus columns) and sends only commitments to
those; in the Ultra flavor its calls are exactly the three commits and the three sends.
The sorted-list round requests the eta batch, applies
`add_ram_rom_memory_records_to_wire_4` to the key with exactly the three values returned,
and what it commits, stores and sends under the `w_4` label is the commitment to the
fourth wire of the key so obtained. -/
theorem fourth_wire_committed_after_memory_records (fl : Flavor)
    (env : Collaborators FF Poly Comm) (s : OinkProver FF Poly Comm) :
    (∃ R, (execute_wire_commitments_round fl env s).trace = s.trace ++ R ∧
      (∀ c ∈ R, c.is_challenge_request = false) ∧
      (∀ p, Call.commit p ∈ R →
        p ∈ [s.proving_key.polynomials.w_l, s.proving_key.polynomials.w_r,
              s.proving_key.polynomials.w_o] ++
            (if fl.IsGoblinFlavor then s.proving_key.polynomials.ecc_op_wires ++
              s.proving_key.polynomials.databus_entities else [])) ∧
      (∀ label v, Call.send_to_verifier label v ∈ R →
        ∃ p, v = Message.commitment (env.commit p) ∧
          p ∈ [s.proving_key.polynomials.w_l, s.proving_key.polynomials.w_r,
                s.proving_key.polynomials.w_o] ++
              (if fl.IsGoblinFlavor then s.proving_key.polynomials.ecc_op_wires ++
                s.proving_key.polynomials.databus_entities else [])) ∧
      (fl.IsGoblinFlavor = false → R =
        [Call.commit s.proving_key.polynomials.w_l,
         Call.commit s.proving_key.polynomials.w_r,
         Call.commit s.proving_key.polynomials.w_o,
         Call.send_to_verifier (s.domain_separator ++ s.commitment_labels.w_l)
           (Message.commitment (env.commit s.proving_key.polynomials.w_l)),
         Call.send_to_verifier (s.domain_separator ++ s.commitment_labels.w_r)
           (Message.commitment (env.commit s.proving_key.polynomials.w_r)),
         Call.send_to_verifier (s.domain_separator ++ s.commitment_labels.w_o)
           (Message.commitment (env.commit s.proving_key.polynomials.w_o))])) ∧
    (execute_wire_commitments_round fl env s).witness_commitments.w_4 =
      s.witness_commitments.w_4 ∧
    (execute_wire_commitments_round fl env s).proving_key = s.proving_key ∧
    (execute_sorted_list_accumulator_round env s).proving_key =
      env.add_ram_rom_memory_records_to_wire_4 s.proving_key
        (env.challenge (transcript_log s.trace) [s.domain_separator ++ "eta",
          s.domain_separator ++ "eta_two", s.domain_separator ++ "eta_three"] 0)
        (env.challenge (transcript_log s.trace) [s.domain_separator ++ "eta",
          s.domain_separator ++ "eta_two", s.domain_separator ++ "eta_three"] 1)
        (env.challenge (transcript_log s.trace) [s.domain_separator ++ "eta",
          s.domain_separator ++ "eta_two", s.domain_separator ++ "eta_three"] 2) ∧
    (execute_sorted_list_accumulator_round env s).witness_commitments.w_4 =
      env.commit (execute_sorted_list_accumulator_round env s).proving_key.polynomials.w_4 ∧
    (execute_sorted_list_accumulator_round env s).trace = s.trace ++
      [Call.get_challenges [s.domain_separator ++ "eta", s.domain_separator ++ "eta_two",
         s.domain_separator ++ "eta_three"],
       Call.add_ram_rom_memory_records_to_wire_4
         (env.challenge (transcript_log s.trace) [s.domain_separator ++ "eta",
           s.domain_separator ++ "eta_two", s.domain_separator ++ "eta_three"] 0)
         (env.challenge (transcript_log s.trace) [s.domain_separator ++ "eta",
           s.domain_separator ++ "eta_two", s.domain_separator ++ "eta_three"] 1)
         (env.challenge (transcript_log s.trace) [s.domain_separator ++ "eta",
           s.domain_separator ++ "eta_two", s.domain_separator ++ "eta_three"] 2),
       Call.commit (execute_sorted_list_accumulator_round env
         s).proving_key.polynomials.lookup_read_counts,
       Call.commit (execute_sorted_list_accumulator_round env
         s).proving_key.polynomials.lookup_read_tags,
       Call.commit (execute_sorted_list_accumulator_round env s).proving_key.polynomials.w_4,
       Call.send_to_verifier (s.domain_separator ++ s.commitment_labels.lookup_read_counts)
         (Message.commitment (env.commit (execute_sorted_list_accumulator_round env
           s).proving_key.polynomials.lookup_read_counts)),
       Call.send_to_verifier (s.domain_separator ++ s.commitment_labels.lookup_read_tags)
         (Message.commitment (env.commit (execute_sorted_list_accumulator_round env
           s).proving_key.polynomials.lookup_read_tags)),
       Call.send_to_verifier (s.domain_separator ++ s.commitment_labels.w_4)
         (Message.commitment (env.commit (execute_sorted_list_accumulator_round env
           s).proving_key.polynomials.w_4))] := by
  have hzip : ∀ (ps : List Poly) (ls : List String) (n : Nat) (x : Poly × String),
      x ∈ (ps.zip ls).take n → x.1 ∈ ps := by
    intro ps ls n x hx
    exact (List.of_mem_zip (List.mem_of_mem_take hx)).1
  refine ⟨⟨_, wire_round_trace fl env s, ?_, ?_, ?_, ?_⟩, (wire_round_commitments fl env s).2.2.2,
    (wire_round_frame fl env s).1, ?_, ?_, ?_⟩
  · obtain ⟨R, hR, -, hRn, -⟩ := wire_round_segment fl env s
    rw [wire_round_trace] at hR
    rw [List.append_cancel_left hR]
    exact hRn
  · intro p hp
    cases hg : fl.IsGoblinFlavor
    · simp only [hg, Bool.false_eq_true, if_false, List.append_nil, List.mem_cons,
        List.mem_singleton, List.not_mem_nil, or_false, Call.commit.injEq] at hp ⊢
      rcases hp with h | h | h | h | h | h
      · exact Or.inl h
      · exact Or.inr (Or.inl h)
      · exact Or.inr (Or.inr h)
      · cases h
      · cases h
      · cases h
    · simp only [hg, if_true, List.mem_append, List.mem_cons, List.mem_singleton,
        List.not_mem_nil, or_false, Call.commit.injEq, List.mem_flatMap] at hp ⊢
      rcases hp with (h | h | h | h | h | h) | ⟨x, hx, h | h⟩ | ⟨x, hx, h | h⟩
      · exact Or.inl (Or.inl h)
      · exact Or.inl (Or.inr (Or.inl h))
      · exact Or.inl (Or.inr (Or.inr h))
      · cases h
      · cases h
      · cases h
      · exact Or.inr (Or.inl (h ▸ hzip _ _ _ x hx))
      · cases h
      · exact Or.inr (Or.inr (h ▸ hzip _ _ _ x hx))
      · cases h
  · intro label v hv
    cases hg : fl.IsGoblinFlavor
    · simp only [hg, Bool.false_eq_true, if_false, List.append_nil, List.mem_cons,
        List.mem_singleton, List.not_mem_nil, or_false] at hv ⊢
      rcases hv with h | h | h | h | h | h
      · cases h
      · cases h
      · cases h
      · cases h; exact ⟨_, rfl, Or.inl rfl⟩
      · cases h; exact ⟨_, rfl, Or.inr (Or.inl rfl)⟩
      · cases h; exact ⟨_, rfl, Or.inr (Or.inr rfl)⟩
    · simp only [hg, if_true, List.mem_append, List.mem_cons, List.mem_singleton,
        List.not_mem_nil, or_false, List.mem_flatMap] at hv ⊢
      rcases hv with (h | h | h | h | h | h) | ⟨x, hx, h | h⟩ | ⟨x, hx, h | h⟩
      · cases h
      · cases h
      · cases h
      · cases h; exact ⟨_, rfl, Or.inl (Or.inl rfl)⟩
      · cases h; exact ⟨_, rfl, Or.inl (Or.inr (Or.inl rfl))⟩
      · cases h; exact ⟨_, rfl, Or.inl (Or.inr (Or.inr rfl))⟩
      · cases h
      · cases h; exact ⟨_, rfl, Or.inr (Or.inl (hzip _ _ _ x hx))⟩
      · cases h
      · cases h; exact ⟨_, rfl, Or.inr (Or.inr (hzip _ _ _ x hx))⟩
  · intro hg
    simp [hg]
  · rw [sorted_list_round_key, sorted_list_round_parameters]
  · rw [sorted_list_round_commitments]
  · rw [sorted_list_round_trace, sorted_list_round_parameters]

end FourthWire

section Dependencies

variable {FF Poly Comm : Type}

/-- C9: in every run of `prove` that gets past the preamble assertion, the calls made are, in
this order: some calls, the eta batch, some calls, the beta/gamma batch, then
`compute_logderivative_inverses` - invoked with relation parameters whose `eta`, `eta_two`,
`eta_three`, `beta`, `gamma` are the values the transcript returned for the two batches -
followed by the commit of the `lookup_inverses` polynomial of the key it returns and the send
of that commitment, then (after the Goblin sends, if any) `compute_grand_product_polynomials`
with the same parameters, followed by the commit of the `z_perm` polynomial of the key it
returns and the send of that commitment; neither entry point is invoked anywhere else. -/
theorem polynomials_computed_after_challenges [Inhabited FF] (fl : Flavor)
    (env : Collaborators FF Poly Comm) (s : OinkProver FF Poly Comm)
    (h : s.proving_key.num_public_inputs = s.proving_key.public_inputs.length) :
    ∃ out s' key3 key4 t0 t1 t2 t3, prove fl env s = .ok (out, s') ∧
      s'.trace = s.trace ++ (t0 ++
        (Call.get_challenges [s.domain_separator ++ "eta", s.domain_separator ++ "eta_two",
          s.domain_separator ++ "eta_three"] :: (t1 ++
        (Call.get_challenges [s.domain_separator ++ "beta", s.domain_separator ++ "gamma"] ::
         Call.compute_logderivative_inverses out.relation_parameters ::
         Call.commit key4.polynomials.lookup_inverses ::
         Call.send_to_verifier (s.domain_separator ++ s.commitment_labels.lookup_inverses)
           (Message.commitment (env.commit key4.polynomials.lookup_inverses)) :: (t2 ++
        (Call.compute_grand_product_polynomials out.relation_parameters ::
         Call.commit out.proving_key.polynomials.z_perm ::
         Call.send_to_verifier (s.domain_separator ++ s.commitment_labels.z_perm)
           (Message.commitment (env.commit out.proving_key.polynomials.z_perm)) :: t3)))))) ∧
      (∀ c ∈ t0 ++ t1 ++ t2 ++ t3, (∀ labels, c ≠ Call.get_challenges labels) ∧
        (∀ rp, c ≠ Call.compute_logderivative_inverses rp) ∧
        (∀ rp, c ≠ Call.compute_grand_product_polynomials rp)) ∧
      out.relation_parameters.eta = env.challenge (transcript_log (s.trace ++ t0))
        [s.domain_separator ++ "eta", s.domain_separator ++ "eta_two",
          s.domain_separator ++ "eta_three"] 0 ∧
      out.relation_parameters.eta_two = env.challenge (transcript_log (s.trace ++ t0))
        [s.domain_separator ++ "eta", s.domain_separator ++ "eta_two",
          s.domain_separator ++ "eta_three"] 1 ∧
      out.relation_parameters.eta_three = env.challenge (transcript_log (s.trace ++ t0))
        [s.domain_separator ++ "eta", s.domain_separator ++ "eta_two",
          s.domain_separator ++ "eta_three"] 2 ∧
      out.relation_parameters.beta = env.challenge (transcript_log (s.trace ++ (t0 ++
          (Call.get_challenges [s.domain_separator ++ "eta", s.domain_separator ++ "eta_two",
            s.domain_separator ++ "eta_three"] :: t1))))
        [s.domain_separator ++ "beta", s.domain_separator ++ "gamma"] 0 ∧
      out.relation_parameters.gamma = env.challenge (transcript_log (s.trace ++ (t0 ++
          (Call.get_challenges [s.domain_separator ++ "eta", s.domain_separator ++ "eta_two",
            s.domain_separator ++ "eta_three"] :: t1))))
        [s.domain_separator ++ "beta", s.domain_separator ++ "gamma"] 1 ∧
      key3 = env.add_ram_rom_memory_records_to_wire_4 s.proving_key
        out.relation_parameters.eta out.relation_parameters.eta_two
        out.relation_parameters.eta_three ∧
      key4 = env.compute_logderivative_inverses key3 out.relation_parameters ∧
      out.proving_key = env.compute_grand_product_polynomials key4 out.relation_parameters ∧
      s'.witness_commitments.lookup_inverses = env.commit key4.polynomials.lookup_inverses ∧
      s'.witness_commitments.z_perm = env.commit out.proving_key.polynomials.z_perm := by
  obtain ⟨R1, s1, s2, s3, s4, s5, hR1s, hs1, hs2, hs3, hs4, hs5, hrun, hd, hl⟩ :=
    run_states fl env s h
  obtain ⟨R2, hR2, -, hR2n, -⟩ := wire_round_segment fl env s1
  obtain ⟨T3, hT3, -, hT3n⟩ := sorted_list_round_segment env s2
  have hT3' := sorted_list_round_trace env s2
  have f2 := wire_round_frame fl env s1
  have hp3 := sorted_list_round_parameters env s2
  have hk3 := sorted_list_round_key env s2
  have hp4 := inverse_round_parameters fl env s3
  have hk4 := inverse_round_key fl env s3
  have ht4 := inverse_round_trace fl env s3
  have hw4 := inverse_round_commitments fl env s3
  have h5 := grand_product_round_eq env s4
  rw [← hs2] at hR2 f2
  rw [← hs3, hd.1] at hT3 hT3' hp3
  rw [← hs3] at hk3
  rw [← hs4, hd.2.1] at hp4 ht4
  rw [← hs4] at hk4 hw4
  rw [hl.2.1] at ht4
  rw [← hs5, hd.2.2.1, hl.2.2.1] at h5
  have ht1 : s1.trace = s.trace ++ R1 := by rw [hs1]
  have hk1 : s1.proving_key = s.proving_key := by rw [hs1]
  have hR1n : ∀ c ∈ R1, c.is_challenge_request = false := by
    intro c hc
    obtain ⟨label, v, hv⟩ := hR1s c hc
    subst hv; rfl
  have hT3eq : T3 = _ := List.cons_injective (List.append_cancel_left (hT3.symm.trans hT3'))
  have hp5 : s5.relation_parameters = s4.relation_parameters := by rw [h5]
  have hk5 : s5.proving_key =
      env.compute_grand_product_polynomials s4.proving_key s4.relation_parameters := by rw [h5]
  have ht5 : s5.trace = s4.trace ++
      [Call.compute_grand_product_polynomials s4.relation_parameters,
       Call.commit s5.proving_key.polynomials.z_perm,
       Call.send_to_verifier (s.domain_separator ++ s.commitment_labels.z_perm)
         (Message.commitment (env.commit s5.proving_key.polynomials.z_perm))] := by
    rw [hk5, h5]
  have hw5 : s5.witness_commitments = { s4.witness_commitments with
      z_perm := env.commit s5.proving_key.polynomials.z_perm } := by
    rw [hk5, h5]
  have hlog2 : s2.trace = s.trace ++ (R1 ++ R2) := by
    rw [hR2, ht1, List.append_assoc]
  refine ⟨_, _, s3.proving_key, s4.proving_key, R1 ++ R2, T3,
    (if fl.IsGoblinFlavor then
        [Call.commit s4.proving_key.polynomials.calldata_inverses,
         Call.commit s4.proving_key.polynomials.return_data_inverses,
         Call.send_to_verifier (s.domain_separator ++ s.commitment_labels.calldata_inverses)
           (Message.commitment (env.commit s4.proving_key.polynomials.calldata_inverses)),
         Call.send_to_verifier
           (s.domain_separator ++ s.commitment_labels.return_data_inverses)
           (Message.commitment (env.commit s4.proving_key.polynomials.return_data_inverses))]
      else []),
    List.map (fun i => Call.get_challenge (s.domain_separator ++ "alpha_" ++ Nat.repr i))
      (List.range fl.RelationSeparator_size),
    hrun, ?_, ?_, ?_, ?_, ?_, ?_, ?_, ?_, ?_, ?_, ?_, ?_⟩
  · rw [generate_alphas_round_state]
    simp only [hd.2.2.2, ht5, ht4, hT3, hlog2, hp5, List.append_assoc, List.cons_append,
      List.nil_append]
  · intro c hc
    simp only [List.mem_append] at hc
    have key : ∀ x : Call FF Poly Comm, x.is_challenge_request = false →
        (∀ labels, x ≠ Call.get_challenges labels) := by
      intro x hx labels hxl
      rw [hxl] at hx
      exact absurd hx (by simp [Call.is_challenge_request])
    rcases hc with (((hc | hc) | hc) | hc) | hc
    · obtain ⟨label, v, hv⟩ := hR1s c hc
      subst hv
      exact ⟨fun _ hx => (by cases hx), fun _ hx => (by cases hx), fun _ hx => (by cases hx)⟩
    · obtain ⟨R, hR, -, -, -⟩ := wire_round_segment fl env s1
      have hRR := wire_round_trace fl env s1
      rw [← hs2] at hR hRR
      have hR2eq : R2 = _ := List.append_cancel_left (hR2.symm.trans hRR)
      rw [hR2eq] at hc
      refine ⟨key c (hR2n c (by rw [hR2eq]; exact hc)), ?_, ?_⟩ <;>
      · intro rp hrp
        rw [hrp] at hc
        rcases List.mem_append.mp hc with hc | hc
        · simp at hc
        · split at hc
          · simp at hc
          · simp at hc
    · refine ⟨key c (hT3n c hc), ?_, ?_⟩ <;>
      · intro rp hrp
        rw [hrp, hT3eq] at hc
        simp at hc
    · split at hc
      · simp only [List.mem_cons, List.mem_singleton, List.not_mem_nil, or_false] at hc
        rcases hc with hc | hc | hc | hc <;> subst hc <;>
          exact ⟨fun _ hx => (by cases hx), fun _ hx => (by cases hx), fun _ hx => (by cases hx)⟩
      · simp at hc
    · obtain ⟨i, -, hi⟩ := List.mem_map.mp hc
      subst hi
      exact ⟨fun _ hx => (by cases hx), fun _ hx => (by cases hx), fun _ hx => (by cases hx)⟩
  · show s5.relation_parameters.eta = _
    rw [hp5, hp4, hp3, hlog2]
  · show s5.relation_parameters.eta_two = _
    rw [hp5, hp4, hp3, hlog2]
  · show s5.relation_parameters.eta_three = _
    rw [hp5, hp4, hp3, hlog2]
  · show s5.relation_parameters.beta = _
    rw [hp5, hp4, hT3, hlog2, List.append_assoc]
  · show s5.relation_parameters.gamma = _
    rw [hp5, hp4, hT3, hlog2, List.append_assoc]
  · show s3.proving_key = env.add_ram_rom_memory_records_to_wire_4 s.proving_key
      s5.relation_parameters.eta s5.relation_parameters.eta_two
      s5.relation_parameters.eta_three
    rw [hp5, hp4, hk3, f2.1, hk1]
  · show s4.proving_key = env.compute_logderivative_inverses s3.proving_key
      s5.relation_parameters
    rw [hp5, hk4]
  · show s5.proving_key = env.compute_grand_product_polynomials s4.proving_key
      s5.relation_parameters
    rw [hp5, hk5]
  · rw [generate_alphas_round_state]
    show s5.witness_commitments.lookup_inverses = _
    rw [hw5, hw4]
  · rw [generate_alphas_round_state]
    show s5.witness_commitments.z_perm = _
    rw [hw5]

theorem polynomials_computed_after_challenges_witness :
    sample_prover.proving_key.num_public_inputs =
      sample_prover.proving_key.public_inputs.length ∧
    ∃ out s' key3 key4 t0 t1 t2 t3, prove ⟨true, 2⟩ sample_collaborators sample_prover = .ok
      (out, s') ∧
      s'.trace = sample_prover.trace ++ (t0 ++
        (Call.get_challenges ["p_eta", "p_eta_two",
          "p_eta_three"] :: (t1 ++
        (Call.get_challenges ["p_beta", "p_gamma"] ::
         Call.compute_logderivative_inverses out.relation_parameters ::
         Call.commit key4.polynomials.lookup_inverses ::
         Call.send_to_verifier "p_LOOKUP_INVERSES"
           (Message.commitment (sample_collaborators.commit key4.polynomials.lookup_inverses))
             :: (t2 ++
        (Call.compute_grand_product_polynomials out.relation_parameters ::
         Call.commit out.proving_key.polynomials.z_perm ::
         Call.send_to_verifier "p_Z_PERM"
           (Message.commitment (sample_collaborators.commit
             out.proving_key.polynomials.z_perm)) :: t3)))))) ∧
      (∀ c ∈ t0 ++ t1 ++ t2 ++ t3, (∀ labels, c ≠ Call.get_challenges labels) ∧
        (∀ rp, c ≠ Call.compute_logderivative_inverses rp) ∧
        (∀ rp, c ≠ Call.compute_grand_product_polynomials rp)) ∧
      out.relation_parameters.eta = sample_collaborators.challenge (transcript_log
        (sample_prover.trace ++ t0))
        ["p_eta", "p_eta_two",
          "p_eta_three"] 0 ∧
      out.relation_parameters.eta_two = sample_collaborators.challenge (transcript_log
        (sample_prover.trace ++ t0))
        ["p_eta", "p_eta_two",
          "p_eta_three"] 1 ∧
      out.relation_parameters.eta_three = sample_collaborators.challenge (transcript_log
        (sample_prover.trace ++ t0))
        ["p_eta", "p_eta_two",
          "p_eta_three"] 2 ∧
      out.relation_parameters.beta = sample_collaborators.challenge (transcript_log
        (sample_prover.trace ++ (t0 ++
          (Call.get_challenges ["p_eta", "p_eta_two",
            "p_eta_three"] :: t1))))
        ["p_beta", "p_gamma"] 0 ∧
      out.relation_parameters.gamma = sample_collaborators.challenge (transcript_log
        (sample_prover.trace ++ (t0 ++
          (Call.get_challenges ["p_eta", "p_eta_two",
            "p_eta_three"] :: t1))))
        ["p_beta", "p_gamma"] 1 ∧
      key3 = sample_collaborators.add_ram_rom_memory_records_to_wire_4 sample_prover.proving_key
        out.relation_parameters.eta out.relation_parameters.eta_two
        out.relation_parameters.eta_three ∧
      key4 = sample_collaborators.compute_logderivative_inverses key3 out.relation_parameters ∧
      out.proving_key = sample_collaborators.compute_grand_product_polynomials key4
        out.relation_parameters ∧
      s'.witness_commitments.lookup_inverses = sample_collaborators.commit
        key4.polynomials.lookup_inverses ∧
      s'.witness_commitments.z_perm = sample_collaborators.commit
        out.proving_key.polynomials.z_perm :=
  ⟨by decide, polynomials_computed_after_challenges ⟨true, 2⟩ sample_collaborators sample_prover
    (by decide)⟩

end Dependencies

section Flavors

variable {FF Poly Comm : Type}

theorem transcript_events_zip_calls (env : Collaborators FF Poly Comm) (d : String)
    (l : List (Poly × String)) :
    transcript_events (List.flatMap l (fun pl =>
      ([Call.commit pl.1,
        Call.send_to_verifier (d ++ pl.2) (Message.commitment (env.commit pl.1))] :
        List (Call FF Poly Comm)))) =
      List.map (fun pl => TranscriptEvent.send (d ++ pl.2)) l := by
  induction l with
  | nil => rfl
  | cons x l ih =>
    simp only [transcript_events] at ih
    simp only [transcript_events, List.flatMap_cons, List.filterMap_append, List.filterMap_cons,
      List.filterMap_nil, Call.transcript_event, List.map_cons, List.cons_append,
      List.nil_append, List.cons.injEq, true_and]
    exact ih

end Flavors

section EveryRun

variable {FF Poly Comm : Type}

/-- C2: in every run of `prove`, in either flavor, whether it returns or stops at the preamble
assertion: wherever the eta batch stands among the calls made by the run, the commitments
to `w_l`, `w_r` and `w_o` have been sent before it; the `z_perm` commitment has been sent
before every single-challenge (`alpha_i`) request; and at every challenge request every
commitment computed so far has already been sent. When the assertion holds the run returns,
and the eta batch and every `alpha_i` are indeed requested. -/
theorem challenges_follow_commitment_sends [Inhabited FF] (fl : Flavor)
    (env : Collaborators FF Poly Comm) (s : OinkProver FF Poly Comm) :
    ∃ s' produced,
      ((∃ out, prove fl env s = .ok (out, s')) ∨
        prove fl env s = .error (Fault.assertion_failed, s')) ∧
      s'.trace = s.trace ++ produced ∧
      (∀ pre post, produced = pre ++ Call.get_challenges [s.domain_separator ++ "eta",
          s.domain_separator ++ "eta_two", s.domain_separator ++ "eta_three"] :: post →
        Call.send_to_verifier (s.domain_separator ++ s.commitment_labels.w_l)
          (Message.commitment (env.commit s.proving_key.polynomials.w_l)) ∈ pre ∧
        Call.send_to_verifier (s.domain_separator ++ s.commitment_labels.w_r)
          (Message.commitment (env.commit s.proving_key.polynomials.w_r)) ∈ pre ∧
        Call.send_to_verifier (s.domain_separator ++ s.commitment_labels.w_o)
          (Message.commitment (env.commit s.proving_key.polynomials.w_o)) ∈ pre) ∧
      (∀ pre label post, produced = pre ++ Call.get_challenge label :: post →
        Call.send_to_verifier (s.domain_separator ++ s.commitment_labels.z_perm)
          (Message.commitment s'.witness_commitments.z_perm) ∈ pre) ∧
      (∀ pre c post, produced = pre ++ c :: post → c.is_challenge_request = true →
        ∀ a p b, pre = a ++ Call.commit p :: b →
          ∃ label, Call.send_to_verifier label (Message.commitment (env.commit p)) ∈ b) ∧
      (s.proving_key.num_public_inputs = s.proving_key.public_inputs.length →
        (∃ out, prove fl env s = .ok (out, s')) ∧
        Call.get_challenges [s.domain_separator ++ "eta", s.domain_separator ++ "eta_two",
          s.domain_separator ++ "eta_three"] ∈ produced ∧
        ∀ i, i < fl.RelationSeparator_size →
          Call.get_challenge (s.domain_separator ++ "alpha_" ++ Nat.repr i) ∈ produced) := by
  by_cases h : s.proving_key.num_public_inputs = s.proving_key.public_inputs.length
  · obtain ⟨out, s', produced, h1, h2, h3, h4, h5, h6, h7⟩ := successful_run_ordering fl env s h
    exact ⟨s', produced, Or.inl ⟨out, h1⟩, h2, h5, h6, h7, fun _ => ⟨⟨out, h1⟩, h3, h4⟩⟩
  · have habort := prove_abort fl env s _ (execute_preamble_round_abort s h)
    have hsend : ∀ (pre post : List (Call FF Poly Comm)) (c : Call FF Poly Comm),
        [Call.send_to_verifier (s.domain_separator ++ "circuit_size")
           (Message.uint32 (s.proving_key.circuit_size % 2 ^ 32)),
         Call.send_to_verifier (s.domain_separator ++ "public_input_size")
           (Message.uint32 (s.proving_key.num_public_inputs % 2 ^ 32)),
         Call.send_to_verifier (s.domain_separator ++ "pub_inputs_offset")
           (Message.uint32 (s.proving_key.pub_inputs_offset % 2 ^ 32))] = pre ++ c :: post →
        c.is_challenge_request = false := by
      intro pre post c hsplit
      have hm : c ∈ pre ++ c :: post := by simp
      rw [← hsplit] at hm
      simp only [List.mem_cons, List.mem_singleton, List.not_mem_nil, or_false] at hm
      rcases hm with hm | hm | hm <;> subst hm <;> rfl
    refine ⟨_, _, Or.inr habort, rfl, ?_, ?_, ?_, fun hh => absurd hh h⟩
    · intro pre post hsplit
      exact absurd (hsend pre post _ hsplit) (by simp [Call.is_challenge_request])
    · intro pre label post hsplit
      exact absurd (hsend pre post _ hsplit) (by simp [Call.is_challenge_request])
    · intro pre c post hsplit hc
      rw [hsend pre post c hsplit] at hc
      exact absurd hc (by decide)

theorem challenges_follow_commitment_sends_witness :
    ∃ s' produced, (∃ out, prove ⟨true, 2⟩ sample_collaborators sample_prover = .ok (out, s')) ∧
      s'.trace = sample_prover.trace ++ produced ∧
      Call.get_challenges ["p_eta", "p_eta_two", "p_eta_three"] ∈ produced ∧
      Call.get_challenge "p_alpha_1" ∈ produced ∧
      (∀ pre post, produced = pre ++ Call.get_challenges ["p_eta", "p_eta_two",
          "p_eta_three"] :: post →
        Call.send_to_verifier "p_W_L" (Message.commitment 1) ∈ pre ∧
        Call.send_to_verifier "p_W_R" (Message.commitment 2) ∈ pre ∧
        Call.send_to_verifier "p_W_O" (Message.commitment 3) ∈ pre) ∧
      (∀ pre label post, produced = pre ++ Call.get_challenge label :: post →
        Call.send_to_verifier "p_Z_PERM"
          (Message.commitment s'.witness_commitments.z_perm) ∈ pre) ∧
      (∀ pre c post, produced = pre ++ c :: post → c.is_challenge_request = true →
        ∀ a p b, pre = a ++ Call.commit p :: b →
          ∃ label, Call.send_to_verifier label
            (Message.commitment (sample_collaborators.commit p)) ∈ b) := by
  obtain ⟨s', produced, -, h2, h3, h4, h5, h6⟩ :=
    challenges_follow_commitment_sends ⟨true, 2⟩ sample_collaborators sample_prover
  obtain ⟨h7, h8, h9⟩ := h6 (by decide)
  exact ⟨s', produced, h7, h2, h8, h9 1 (by decide), h3, h4, h5⟩

end EveryRun

namespace Avm_vm

/-- C13: `powersImpl::accumulate` leaves the container over subrelations, and so its single
slot 0, exactly as it was: for every row, every relation parameters, every scaling factor
and every initial accumulator the contribution `(v - v) * scaling_factor` it adds is zero. -/
theorem powers_accumulates_zero {FF : Type} [CommRing FF]
    (evals : PowersContainerOverSubrelations FF) (new_term : PowersRow FF)
    (params : RelationParameters FF) (scaling_factor : FF) :
    (new_term.powers_power_of_2 - new_term.powers_power_of_2) * scaling_factor = 0 ∧
    (powersImpl.accumulate evals new_term params scaling_factor).get_0 = evals.get_0 ∧
    powersImpl.accumulate evals new_term params scaling_factor = evals ∧
    powersImpl.SUBRELATION_PARTIAL_LENGTHS.length = 1 := by
  refine ⟨by simp, by simp [powersImpl.accumulate], by simp [powersImpl.accumulate], rfl⟩

/-- C16: `powers::get_subrelation_label` returns, for every index (0, the one declared
subrelation, and every index beyond it alike), the decimal string of the index; it has no
failing path, and distinct indexes get distinct labels. -/
theorem get_subrelation_label_total :
    (∀ index, powers.get_subrelation_label index = Nat.repr index) ∧
    powers.get_subrelation_label 0 = "0" ∧
    powers.get_subrelation_label 1 = "1" ∧
    Function.Injective powers.get_subrelation_label := by
  refine ⟨fun _ => rfl, by decide, by decide, ?_⟩
  intro i j hij
  exact repr_injective hij

namespace range_check_da_gas_hi_lookup_settings

/-- C14: for every row, with no restriction on its values, `compute_inverse_exists` returns
`is_operation + is_table_entry - is_operation * is_table_entry` of the row's two selectors;
and on a row whose two selectors are each 0 or 1 this value is their logical OR: 1 when at
least one selector is 1, otherwise 0, hence 0 or 1. -/
theorem compute_inverse_exists_is_or {FF : Type} [CommRing FF] [Nontrivial FF]
    (row : AllEntities FF) :
    compute_inverse_exists row = row.main_sel_gas_accounting_active + row.main_sel_rng_16 -
      row.main_sel_gas_accounting_active * row.main_sel_rng_16 ∧
    ((row.main_sel_gas_accounting_active = 0 ∨ row.main_sel_gas_accounting_active = 1) →
      (row.main_sel_rng_16 = 0 ∨ row.main_sel_rng_16 = 1) →
      ((row.main_sel_gas_accounting_active = 1 ∨ row.main_sel_rng_16 = 1) →
        compute_inverse_exists row = 1) ∧
      (¬ (row.main_sel_gas_accounting_active = 1 ∨ row.main_sel_rng_16 = 1) →
        compute_inverse_exists row = 0) ∧
      (compute_inverse_exists row = 0 ∨ compute_inverse_exists row = 1)) := by
  refine ⟨rfl, ?_⟩
  intro ha hb
  refine ⟨?_, ?_, ?_⟩
  · rintro (h | h)
    · simp [compute_inverse_exists, h]
    · simp [compute_inverse_exists, h]
  · intro hn
    have h1 : row.main_sel_gas_accounting_active = 0 := by
      rcases ha with h | h
      · exact h
      · exact absurd (Or.inl h) hn
    have h2 : row.main_sel_rng_16 = 0 := by
      rcases hb with h | h
      · exact h
      · exact absurd (Or.inr h) hn
    simp [compute_inverse_exists, h1, h2]
  · rcases ha with h1 | h1 <;> rcases hb with h2 | h2 <;>
      simp [compute_inverse_exists, h1, h2]

theorem compute_inverse_exists_is_or_witness :
    compute_inverse_exists (selector_row 3 0) =
      (selector_row 3 0).main_sel_gas_accounting_active + (selector_row 3 0).main_sel_rng_16 -
        (selector_row 3 0).main_sel_gas_accounting_active *
          (selector_row 3 0).main_sel_rng_16 ∧
    compute_inverse_exists (selector_row 3 0) = 3 ∧
    ((selector_row 1 0).main_sel_gas_accounting_active = 0 ∨
      (selector_row 1 0).main_sel_gas_accounting_active = 1) ∧
    ((selector_row 1 0).main_sel_rng_16 = 0 ∨ (selector_row 1 0).main_sel_rng_16 = 1) ∧
    compute_inverse_exists (selector_row 1 0) = 1 :=
  ⟨(compute_inverse_exists_is_or (selector_row 3 0)).1, by decide, by decide, by decide,
    ((compute_inverse_exists_is_or (selector_row 1 0)).2 (by decide) (by decide)).1
      (by decide)⟩

/-- C17: over any field and for every row, with no restriction on the selector values,
`compute_inverse_exists` is 1 if and only if `inverse_polynomial_is_computed_at_row` is
true: `a + b - a * b = 1` exactly when `a = 1` or `b = 1`. -/
theorem inverse_exists_one_iff_computed {FF : Type} [Field FF] [DecidableEq FF]
    (row : AllEntities FF) :
    (compute_inverse_exists row = 1 ↔ inverse_polynomial_is_computed_at_row row = true) ∧
    (row.main_sel_gas_accounting_active + row.main_sel_rng_16 -
        row.main_sel_gas_accounting_active * row.main_sel_rng_16 = 1 ↔
      row.main_sel_gas_accounting_active = 1 ∨ row.main_sel_rng_16 = 1) := by
  have key : row.main_sel_gas_accounting_active + row.main_sel_rng_16 -
        row.main_sel_gas_accounting_active * row.main_sel_rng_16 = 1 ↔
      row.main_sel_gas_accounting_active = 1 ∨ row.main_sel_rng_16 = 1 := by
    constructor
    · intro h
      have hz : (row.main_sel_gas_accounting_active - 1) * (row.main_sel_rng_16 - 1) = 0 := by
        linear_combination -h
      rcases mul_eq_zero.mp hz with h1 | h1
      · exact Or.inl (sub_eq_zero.mp h1)
      · exact Or.inr (sub_eq_zero.mp h1)
    · rintro (h | h)
      · rw [h]; ring
      · rw [h]; ring
  refine ⟨?_, key⟩
  simp only [compute_inverse_exists, inverse_polynomial_is_computed_at_row, Bool.or_eq_true,
    beq_iff_eq]
  exact key

/-- C15 (as stated, refuted): on the row whose operation selector is 2 and whose table
selector is 0 the inverse is not computed, yet `compute_inverse_exists` is 2, which is not
the value 0 of the mask there. -/
theorem inverse_exists_differs_from_mask :
    inverse_polynomial_is_computed_at_row (selector_row 2 0) = false ∧
    compute_inverse_exists (selector_row 2 0) = 2 ∧
    compute_inverse_exists (selector_row 2 0) ≠
      (if inverse_polynomial_is_computed_at_row (selector_row 2 0) = true then 1 else 0) := by
  decide

/-- C15 (amended): on every row whose two selectors are each 0 or 1,
`compute_inverse_exists` equals the inverse-applicability mask: it is 1 exactly when
`inverse_polynomial_is_computed_at_row` is true and 0 exactly when it is false. -/
theorem inverse_exists_equals_mask_on_boolean_selectors {FF : Type} [CommRing FF]
    [Nontrivial FF] [DecidableEq FF] (row : AllEntities FF)
    (ha : row.main_sel_gas_accounting_active = 0 ∨ row.main_sel_gas_accounting_active = 1)
    (hb : row.main_sel_rng_16 = 0 ∨ row.main_sel_rng_16 = 1) :
    compute_inverse_exists row =
      (if inverse_polynomial_is_computed_at_row row = true then 1 else 0) ∧
    (compute_inverse_exists row = 1 ↔ inverse_polynomial_is_computed_at_row row = true) ∧
    (compute_inverse_exists row = 0 ↔ inverse_polynomial_is_computed_at_row row = false) := by
  rcases ha with h1 | h1 <;> rcases hb with h2 | h2 <;>
    simp [compute_inverse_exists, inverse_polynomial_is_computed_at_row, h1, h2]

theorem inverse_exists_equals_mask_on_boolean_selectors_witness :
    ((selector_row 0 1).main_sel_gas_accounting_active = 0 ∨
      (selector_row 0 1).main_sel_gas_accounting_active = 1) ∧
    ((selector_row 0 1).main_sel_rng_16 = 0 ∨ (selector_row 0 1).main_sel_rng_16 = 1) ∧
    compute_inverse_exists (selector_row 0 1) =
      (if inverse_polynomial_is_computed_at_row (selector_row 0 1) = true then 1 else 0) :=
  ⟨by decide, by decide,
    (inverse_exists_equals_mask_on_boolean_selectors (selector_row 0 1) (by decide)
      (by decide)).1⟩

end range_check_da_gas_hi_lookup_settings

end Avm_vm

section CommitOnce

variable {FF Poly Comm : Type}

/-- The states between the rounds of a run whose assertion holds, with the preamble's calls
spelled out. -/
theorem run_states_explicit [Inhabited FF] (fl : Flavor) (env : Collaborators FF Poly Comm)
    (s : OinkProver FF Poly Comm)
    (h : s.proving_key.num_public_inputs = s.proving_key.public_inputs.length) :
    ∃ (s1 s2 s3 s4 s5 : OinkProver FF Poly Comm),
      s1 = { s with trace := (s.trace ++
        ([Call.send_to_verifier (s.domain_separator ++ "circuit_size")
           (Message.uint32 (s.proving_key.circuit_size % 2 ^ 32)),
         Call.send_to_verifier (s.domain_separator ++ "public_input_size")
           (Message.uint32 (s.proving_key.num_public_inputs % 2 ^ 32)),
         Call.send_to_verifier (s.domain_separator ++ "pub_inputs_offset")
           (Message.uint32 (s.proving_key.pub_inputs_offset % 2 ^ 32))] ++
        List.map (fun p => Call.send_to_verifier
            (s.domain_separator ++ "public_input_" ++ Nat.repr p.1) (Message.field p.2))
          s.proving_key.public_inputs.enum)) } ∧
      s2 = execute_wire_commitments_round fl env s1 ∧
      s3 = execute_sorted_list_accumulator_round env s2 ∧
      s4 = execute_log_derivative_inverse_round fl env s3 ∧
      s5 = execute_grand_product_computation_round env s4 ∧
      prove fl env s = .ok
        ({ proving_key := s5.proving_key
           relation_parameters := s5.relation_parameters
           alphas := (generate_alphas_round fl env s5).1 },
         (generate_alphas_round fl env s5).2) ∧
      (s2.domain_separator = s.domain_separator ∧ s3.domain_separator = s.domain_separator ∧
        s4.domain_separator = s.domain_separator ∧ s5.domain_separator = s.domain_separator) ∧
      (s2.commitment_labels = s.commitment_labels ∧ s3.commitment_labels = s.commitment_labels ∧
        s4.commitment_labels = s.commitment_labels ∧
        s5.commitment_labels = s.commitment_labels) := by
  have hok := execute_preamble_round_ok s h
  rw [List.append_assoc] at hok
  have f2 := wire_round_frame fl env { s with trace := (s.trace ++
        ([Call.send_to_verifier (s.domain_separator ++ "circuit_size")
           (Message.uint32 (s.proving_key.circuit_size % 2 ^ 32)),
         Call.send_to_verifier (s.domain_separator ++ "public_input_size")
           (Message.uint32 (s.proving_key.num_public_inputs % 2 ^ 32)),
         Call.send_to_verifier (s.domain_separator ++ "pub_inputs_offset")
           (Message.uint32 (s.proving_key.pub_inputs_offset % 2 ^ 32))] ++
        List.map (fun p => Call.send_to_verifier
            (s.domain_separator ++ "public_input_" ++ Nat.repr p.1) (Message.field p.2))
          s.proving_key.public_inputs.enum)) }
  have f3 := sorted_list_round_frame env (execute_wire_commitments_round fl env
    { s with trace := (s.trace ++
        ([Call.send_to_verifier (s.domain_separator ++ "circuit_size")
           (Message.uint32 (s.proving_key.circuit_size % 2 ^ 32)),
         Call.send_to_verifier (s.domain_separator ++ "public_input_size")
           (Message.uint32 (s.proving_key.num_public_inputs % 2 ^ 32)),
         Call.send_to_verifier (s.domain_separator ++ "pub_inputs_offset")
           (Message.uint32 (s.proving_key.pub_inputs_offset % 2 ^ 32))] ++
        List.map (fun p => Call.send_to_verifier
            (s.domain_separator ++ "public_input_" ++ Nat.repr p.1) (Message.field p.2))
          s.proving_key.public_inputs.enum)) })
  have f4 := inverse_round_frame fl env (execute_sorted_list_accumulator_round env
    (execute_wire_commitments_round fl env { s with trace := (s.trace ++
        ([Call.send_to_verifier (s.domain_separator ++ "circuit_size")
           (Message.uint32 (s.proving_key.circuit_size % 2 ^ 32)),
         Call.send_to_verifier (s.domain_separator ++ "public_input_size")
           (Message.uint32 (s.proving_key.num_public_inputs % 2 ^ 32)),
         Call.send_to_verifier (s.domain_separator ++ "pub_inputs_offset")
           (Message.uint32 (s.proving_key.pub_inputs_offset % 2 ^ 32))] ++
        List.map (fun p => Call.send_to_verifier
            (s.domain_separator ++ "public_input_" ++ Nat.repr p.1) (Message.field p.2))
          s.proving_key.public_inputs.enum)) }))
  refine ⟨_, _, _, _, _, rfl, rfl, rfl, rfl, rfl, prove_unfold fl env s _ hok, ?_, ?_⟩
  · refine ⟨f2.2.2.2, ?_, ?_, ?_⟩
    · rw [f3.2, f2.2.2.2]
    · rw [f4.2, f3.2, f2.2.2.2]
    · rw [grand_product_round_eq]; simp only; rw [f4.2, f3.2, f2.2.2.2]
  · refine ⟨f2.2.2.1, ?_, ?_, ?_⟩
    · rw [f3.1, f2.2.2.1]
    · rw [f4.1, f3.1, f2.2.2.1]
    · rw [grand_product_round_eq]; simp only; rw [f4.1, f3.1, f2.2.2.1]

end CommitOnce

section ParameterFrames

variable {FF Poly Comm : Type}

/-- C12: each relation parameter is written by exactly one round, which sets it to the value
the transcript returns, and by no other: the sorted-list round replaces `eta`, `eta_two`,
`eta_three` by the three values of the eta batch and leaves `beta`, `gamma`; the inverse
round replaces `beta`, `gamma` by the two values of the beta/gamma batch and leaves `eta`,
`eta_two`, `eta_three`; the preamble, the wire round, the grand-product round and the alpha
round leave the relation parameters as they are. Hence, in a run that gets past the
assertion, the output's parameters are the initial ones with exactly these five fields
replaced by the values derived at the time of the two requests. -/
theorem relation_parameters_written_once [Inhabited FF] (fl : Flavor)
    (env : Collaborators FF Poly Comm) (s : OinkProver FF Poly Comm)
    (h : s.proving_key.num_public_inputs = s.proving_key.public_inputs.length) :
    (∀ t t1 : OinkProver FF Poly Comm, execute_preamble_round t = .ok t1 →
      t1.relation_parameters = t.relation_parameters) ∧
    (∀ t : OinkProver FF Poly Comm,
      (execute_wire_commitments_round fl env t).relation_parameters = t.relation_parameters ∧
      (execute_sorted_list_accumulator_round env t).relation_parameters =
        { t.relation_parameters with
          eta := env.challenge (transcript_log t.trace) [t.domain_separator ++ "eta",
            t.domain_separator ++ "eta_two", t.domain_separator ++ "eta_three"] 0
          eta_two := env.challenge (transcript_log t.trace) [t.domain_separator ++ "eta",
            t.domain_separator ++ "eta_two", t.domain_separator ++ "eta_three"] 1
          eta_three := env.challenge (transcript_log t.trace) [t.domain_separator ++ "eta",
            t.domain_separator ++ "eta_two", t.domain_separator ++ "eta_three"] 2 } ∧
      (execute_log_derivative_inverse_round fl env t).relation_parameters =
        { t.relation_parameters with
          beta := env.challenge (transcript_log t.trace)
            [t.domain_separator ++ "beta", t.domain_separator ++ "gamma"] 0
          gamma := env.challenge (transcript_log t.trace)
            [t.domain_separator ++ "beta", t.domain_separator ++ "gamma"] 1 } ∧
      (execute_grand_product_computation_round env t).relation_parameters =
        t.relation_parameters ∧
      (generate_alphas_round fl env t).2.relation_parameters = t.relation_parameters) ∧
    ∃ out s' s1 s2 s3 s4, prove fl env s = .ok (out, s') ∧
      execute_preamble_round s = .ok s1 ∧
      s2 = execute_wire_commitments_round fl env s1 ∧
      s3 = execute_sorted_list_accumulator_round env s2 ∧
      s4 = execute_log_derivative_inverse_round fl env s3 ∧
      out.relation_parameters =
        { s.relation_parameters with
          eta := env.challenge (transcript_log s2.trace) [s.domain_separator ++ "eta",
            s.domain_separator ++ "eta_two", s.domain_separator ++ "eta_three"] 0
          eta_two := env.challenge (transcript_log s2.trace) [s.domain_separator ++ "eta",
            s.domain_separator ++ "eta_two", s.domain_separator ++ "eta_three"] 1
          eta_three := env.challenge (transcript_log s2.trace) [s.domain_separator ++ "eta",
            s.domain_separator ++ "eta_two", s.domain_separator ++ "eta_three"] 2
          beta := env.challenge (transcript_log s3.trace)
            [s.domain_separator ++ "beta", s.domain_separator ++ "gamma"] 0
          gamma := env.challenge (transcript_log s3.trace)
            [s.domain_separator ++ "beta", s.domain_separator ++ "gamma"] 1 } ∧
      out.relation_parameters.eta = s3.relation_parameters.eta ∧
      out.relation_parameters.eta_two = s3.relation_parameters.eta_two ∧
      out.relation_parameters.eta_three = s3.relation_parameters.eta_three ∧
      out.relation_parameters.beta = s4.relation_parameters.beta ∧
      out.relation_parameters.gamma = s4.relation_parameters.gamma ∧
      s'.relation_parameters = out.relation_parameters := by
  refine ⟨?_, ?_, ?_⟩
  · intro t t1 ht
    by_cases hc : t.proving_key.num_public_inputs = t.proving_key.public_inputs.length
    · rw [execute_preamble_round_ok t hc] at ht
      cases ht
      rfl
    · rw [execute_preamble_round_abort t hc] at ht
      cases ht
  · intro t
    refine ⟨(wire_round_frame fl env t).2.1, sorted_list_round_parameters env t,
      inverse_round_parameters fl env t, ?_, ?_⟩
    · rw [grand_product_round_eq]
    · rw [generate_alphas_round_state]
  · obtain ⟨s1, s2, s3, s4, s5, hs1, hs2, hs3, hs4, hs5, hrun, hd, -⟩ :=
      run_states_explicit fl env s h
    have hok : execute_preamble_round s = .ok s1 := by
      rw [hs1, execute_preamble_round_ok s h, List.append_assoc]
    have hp1 : s1.relation_parameters = s.relation_parameters := by rw [hs1]
    have hp2 : s2.relation_parameters = s.relation_parameters := by
      rw [hs2, (wire_round_frame fl env s1).2.1, hp1]
    have hp3 := sorted_list_round_parameters env s2
    have hp4 := inverse_round_parameters fl env s3
    have hp5 : s5.relation_parameters = s4.relation_parameters := by
      rw [hs5, grand_product_round_eq]
    rw [← hs3, hd.1, hp2] at hp3
    rw [← hs4, hd.2.1] at hp4
    refine ⟨_, _, s1, s2, s3, s4, hrun, hok, hs2, hs3, hs4, ?_, ?_, ?_, ?_, ?_, ?_, ?_⟩
    · show s5.relation_parameters = _
      rw [hp5, hp4, hp3]
    · show s5.relation_parameters.eta = _
      rw [hp5, hp4]
    · show s5.relation_parameters.eta_two = _
      rw [hp5, hp4]
    · show s5.relation_parameters.eta_three = _
      rw [hp5, hp4]
    · show s5.relation_parameters.beta = _
      rw [hp5]
    · show s5.relation_parameters.gamma = _
      rw [hp5]
    · rw [generate_alphas_round_state]

theorem relation_parameters_written_once_witness :
    sample_prover.proving_key.num_public_inputs =
      sample_prover.proving_key.public_inputs.length ∧
    ∃ out s', prove ⟨true, 2⟩ sample_collaborators sample_prover = .ok (out, s') ∧
      out.relation_parameters =
        { eta := 1100, eta_two := 1101, eta_three := 1102, beta := 1500, gamma := 1501 } ∧
      s'.relation_parameters = out.relation_parameters := by
  refine ⟨by decide, ?_⟩
  obtain ⟨out, s', s1, s2, s3, s4, h1, h2, h3, h4, -, h6, -, -, -, -, -, h12⟩ :=
    (relation_parameters_written_once ⟨true, 2⟩ sample_collaborators sample_prover
      (by decide)).2.2
  refine ⟨out, s', h1, ?_, h12⟩
  rw [execute_preamble_round_ok sample_prover (by decide)] at h2
  cases h2
  subst h3
  subst h4
  rw [h6]
  rfl

end ParameterFrames

section CommitOnceClaim

variable {FF Poly Comm : Type}

end CommitOnceClaim

section Independence

variable {FF Poly Comm : Type}

/-- The transcript events appended by a run that gets past the preamble assertion, in either
flavor. -/
theorem run_events [Inhabited FF] (fl : Flavor) (env : Collaborators FF Poly Comm)
    (s : OinkProver FF Poly Comm)
    (h : s.proving_key.num_public_inputs = s.proving_key.public_inputs.length) :
    ∃ out s', prove fl env s = .ok (out, s') ∧
      transcript_events (s'.trace.drop s.trace.length) =
        [TranscriptEvent.send (s.domain_separator ++ "circuit_size"),
         TranscriptEvent.send (s.domain_separator ++ "public_input_size"),
         TranscriptEvent.send (s.domain_separator ++ "pub_inputs_offset")] ++
        List.map (fun i => TranscriptEvent.send
            (s.domain_separator ++ "public_input_" ++ Nat.repr i))
          (List.range s.proving_key.public_inputs.length) ++
        [TranscriptEvent.send (s.domain_separator ++ s.commitment_labels.w_l),
         TranscriptEvent.send (s.domain_separator ++ s.commitment_labels.w_r),
         TranscriptEvent.send (s.domain_separator ++ s.commitment_labels.w_o)] ++
        (if fl.IsGoblinFlavor then
          List.map (fun pl => TranscriptEvent.send (s.domain_separator ++ pl.2))
            ((s.proving_key.polynomials.ecc_op_wires.zip
              s.commitment_labels.ecc_op_wires).take
                s.witness_commitments.ecc_op_wires.length) ++
          List.map (fun pl => TranscriptEvent.send (s.domain_separator ++ pl.2))
            ((s.proving_key.polynomials.databus_entities.zip
              s.commitment_labels.databus_entities).take
                s.witness_commitments.databus_entities.length)
         else []) ++
        [TranscriptEvent.challenge_batch [s.domain_separator ++ "eta",
           s.domain_separator ++ "eta_two", s.domain_separator ++ "eta_three"],
         TranscriptEvent.send (s.domain_separator ++ s.commitment_labels.lookup_read_counts),
         TranscriptEvent.send (s.domain_separator ++ s.commitment_labels.lookup_read_tags),
         TranscriptEvent.send (s.domain_separator ++ s.commitment_labels.w_4),
         TranscriptEvent.challenge_batch [s.domain_separator ++ "beta",
           s.domain_separator ++ "gamma"],
         TranscriptEvent.send (s.domain_separator ++ s.commitment_labels.lookup_inverses)] ++
        (if fl.IsGoblinFlavor then
          [TranscriptEvent.send (s.domain_separator ++ s.commitment_labels.calldata_inverses),
           TranscriptEvent.send
             (s.domain_separator ++ s.commitment_labels.return_data_inverses)]
         else []) ++
        (TranscriptEvent.send (s.domain_separator ++ s.commitment_labels.z_perm) ::
         List.map (fun i => TranscriptEvent.challenge
             (s.domain_separator ++ "alpha_" ++ Nat.repr i))
           (List.range fl.RelationSeparator_size)) := by
  refine ⟨_, _, prove_unfold fl env s _ (execute_preamble_round_ok s h), ?_⟩
  rw [generate_alphas_round_state]
  simp only [grand_product_round_eq, inverse_round_trace, inverse_round_frame,
    sorted_list_round_trace, sorted_list_round_frame, wire_round_trace, wire_round_frame,
    List.append_assoc, List.drop_left]
  cases hg : fl.IsGoblinFlavor
  · simp only [transcript_events, List.filterMap_append, List.filterMap_map,
      Function.comp_def, Call.transcript_event, filterMap_some, List.filterMap_cons,
      List.filterMap_nil, List.append_assoc, List.cons_append, List.nil_append,
      Bool.false_eq_true, if_false]
    rw [map_enum_fst (fun i => TranscriptEvent.send
      (s.domain_separator ++ "public_input_" ++ Nat.repr i))]
  · simp only [transcript_events_append, if_true, transcript_events_zip_calls]
    simp only [transcript_events, List.filterMap_append, List.filterMap_map,
      Function.comp_def, Call.transcript_event, filterMap_some, List.filterMap_cons,
      List.filterMap_nil, List.append_assoc, List.cons_append, List.nil_append]
    rw [map_enum_fst (fun i => TranscriptEvent.send
      (s.domain_separator ++ "public_input_" ++ Nat.repr i))]

theorem zip_labels_shape {β : Type} (g : String → β) : ∀ (ps ps' : List Poly)
    (ls : List String) (n : Nat), ps.length = ps'.length →
    List.map (fun pl => g pl.2) ((ps.zip ls).take n) =
      List.map (fun pl => g pl.2) ((ps'.zip ls).take n) := by
  intro ps
  induction ps with
  | nil =>
    intro ps' ls n hlen
    cases ps' with
    | nil => rfl
    | cons p' ps' => simp at hlen
  | cons p ps ih =>
    intro ps' ls n hlen
    cases ps' with
    | nil => simp at hlen
    | cons p' ps' =>
      cases ls with
      | nil => simp
      | cons l ls =>
        cases n with
        | zero => simp
        | succ n =>
          simp only [List.zip_cons_cons, List.take_succ_cons, List.map_cons, List.cons.injEq,
            true_and]
          exact ih ps' ls n (by simpa using hlen)

/-- C19: two runs of `prove` in the same flavor, on provers with the same domain separator,
commitment labels and public-input count (and, in the Goblin flavor, as many op-wire and
DataBus polynomials and commitment slots), both past the preamble assertion, append the same
sequence of transcript events (kinds and labels), whatever the circuit sizes, public-input
values, polynomials, earlier calls and collaborators (challenge values, commitments and key
mutations) of the two runs. -/
theorem transcript_labels_independent_of_witness [Inhabited FF] (fl : Flavor)
    (env env' : Collaborators FF Poly Comm) (s t : OinkProver FF Poly Comm)
    (hs : s.proving_key.num_public_inputs = s.proving_key.public_inputs.length)
    (ht : t.proving_key.num_public_inputs = t.proving_key.public_inputs.length)
    (hn : s.proving_key.num_public_inputs = t.proving_key.num_public_inputs)
    (hd : s.domain_separator = t.domain_separator)
    (hl : s.commitment_labels = t.commitment_labels)
    (hshape : fl.IsGoblinFlavor = true →
      s.proving_key.polynomials.ecc_op_wires.length =
        t.proving_key.polynomials.ecc_op_wires.length ∧
      s.witness_commitments.ecc_op_wires.length = t.witness_commitments.ecc_op_wires.length ∧
      s.proving_key.polynomials.databus_entities.length =
        t.proving_key.polynomials.databus_entities.length ∧
      s.witness_commitments.databus_entities.length =
        t.witness_commitments.databus_entities.length) :
    ∃ out s' out' t', prove fl env s = .ok (out, s') ∧ prove fl env' t = .ok (out', t') ∧
      transcript_events (s'.trace.drop s.trace.length) =
        transcript_events (t'.trace.drop t.trace.length) := by
  obtain ⟨out, s', hrs, hes⟩ := run_events fl env s hs
  obtain ⟨out', t', hrt, het⟩ := run_events fl env' t ht
  refine ⟨out, s', out', t', hrs, hrt, ?_⟩
  have hlen : s.proving_key.public_inputs.length = t.proving_key.public_inputs.length := by
    rw [← hs, ← ht, hn]
  rw [hes, het, hd, hl, hlen]
  cases hg : fl.IsGoblinFlavor
  · simp
  · obtain ⟨h1, h2, h3, h4⟩ := hshape hg
    simp only [if_true]
    rw [h2, h4,
      zip_labels_shape (fun l => TranscriptEvent.send (t.domain_separator ++ l)) _ _ _ _ h1,
      zip_labels_shape (fun l => TranscriptEvent.send (t.domain_separator ++ l)) _ _ _ _ h3]

theorem transcript_labels_independent_of_witness_witness :
    sample_prover.proving_key.num_public_inputs =
      sample_prover.proving_key.public_inputs.length ∧
    sample_prover_other.proving_key.num_public_inputs =
      sample_prover_other.proving_key.public_inputs.length ∧
    sample_prover.proving_key.polynomials ≠ sample_prover_other.proving_key.polynomials ∧
    sample_prover.proving_key.public_inputs ≠ sample_prover_other.proving_key.public_inputs ∧
    ∃ out s' out' t',
      prove ⟨true, 2⟩ sample_collaborators sample_prover = .ok (out, s') ∧
      prove ⟨true, 2⟩ sample_collaborators_other sample_prover_other = .ok (out', t') ∧
      transcript_events (s'.trace.drop sample_prover.trace.length) =
        transcript_events (t'.trace.drop sample_prover_other.trace.length) :=
  ⟨by decide, by decide, by decide, by decide,
    transcript_labels_independent_of_witness ⟨true, 2⟩ sample_collaborators
      sample_collaborators_other sample_prover sample_prover_other (by decide) (by decide)
      (by decide) (by decide) (by decide) (by decide)⟩

end Independence

section PreambleValues

variable {FF Poly Comm : Type}

/-- C18 (as stated, refuted): a prover whose circuit size is `2 ^ 32 + 8` passes the preamble
assertion, and the value sent under `circuit_size` is 8, not the circuit size. -/
theorem wide_circuit_size_sent_truncated :
    sample_prover_wide.proving_key.num_public_inputs =
      sample_prover_wide.proving_key.public_inputs.length ∧
    (execute_preamble_round sample_prover_wide).toOption.map (fun r => r.trace.take 1) =
      some [Call.send_to_verifier "p_circuit_size" (Message.uint32 8)] ∧
    sample_prover_wide.proving_key.circuit_size = 4294967304 ∧
    sample_prover_wide.proving_key.circuit_size ≠ 8 := by
  decide

/-- C18 (amended): for every proving key that passes the preamble assertion, the values sent
under `circuit_size`, `public_input_size` and `pub_inputs_offset` are the key's fields
reduced modulo `2 ^ 32`, and exactly `num_public_inputs` messages `public_input_i` follow
them; so a field below `2 ^ 32` is sent as it is, and when the public-input count is below
`2 ^ 32` the value sent under `public_input_size` is the number of `public_input_i`
messages. -/
theorem preamble_sends_32_bit_casts (s : OinkProver FF Poly Comm)
    (h : s.proving_key.num_public_inputs = s.proving_key.public_inputs.length) :
    ∃ sends, execute_preamble_round s = .ok { s with trace := s.trace ++
        [Call.send_to_verifier (s.domain_separator ++ "circuit_size")
           (Message.uint32 (s.proving_key.circuit_size % 2 ^ 32)),
         Call.send_to_verifier (s.domain_separator ++ "public_input_size")
           (Message.uint32 (s.proving_key.num_public_inputs % 2 ^ 32)),
         Call.send_to_verifier (s.domain_separator ++ "pub_inputs_offset")
           (Message.uint32 (s.proving_key.pub_inputs_offset % 2 ^ 32))] ++ sends } ∧
      sends.length = s.proving_key.num_public_inputs ∧
      (∀ c ∈ sends, ∃ i x, c = Call.send_to_verifier
        (s.domain_separator ++ "public_input_" ++ Nat.repr i) (Message.field x)) ∧
      (s.proving_key.circuit_size < 2 ^ 32 →
        s.proving_key.circuit_size % 2 ^ 32 = s.proving_key.circuit_size) ∧
      (s.proving_key.num_public_inputs < 2 ^ 32 →
        s.proving_key.num_public_inputs % 2 ^ 32 = sends.length) ∧
      (s.proving_key.pub_inputs_offset < 2 ^ 32 →
        s.proving_key.pub_inputs_offset % 2 ^ 32 = s.proving_key.pub_inputs_offset) := by
  refine ⟨_, execute_preamble_round_ok s h, ?_, ?_, ?_, ?_, ?_⟩
  · simp [List.enum, h]
  · intro c hc
    obtain ⟨p, -, hp⟩ := List.mem_map.mp hc
    exact ⟨_, _, hp.symm⟩
  · intro hlt
    exact Nat.mod_eq_of_lt hlt
  · intro hlt
    rw [Nat.mod_eq_of_lt hlt]
    simp [List.enum, h]
  · intro hlt
    exact Nat.mod_eq_of_lt hlt

theorem preamble_sends_32_bit_casts_witness :
    sample_prover_wide.proving_key.num_public_inputs =
      sample_prover_wide.proving_key.public_inputs.length ∧
    ∃ sends, execute_preamble_round sample_prover_wide =
        .ok { sample_prover_wide with trace := sample_prover_wide.trace ++
          [Call.send_to_verifier "p_circuit_size" (Message.uint32 8),
           Call.send_to_verifier "p_public_input_size" (Message.uint32 2),
           Call.send_to_verifier "p_pub_inputs_offset" (Message.uint32 1)] ++ sends } ∧
      sends.length = 2 := by
  refine ⟨by decide, ?_⟩
  obtain ⟨sends, h1, h2, -⟩ := preamble_sends_32_bit_casts sample_prover_wide (by decide)
  exact ⟨sends, h1, h2⟩

theorem send_public_inputs_error_iff : ∀ (remaining i : Nat) (t : OinkProver FF Poly Comm),
    (∃ e, send_public_inputs remaining i t = .error e) ↔
      t.proving_key.public_inputs.length < i + remaining ∧ 0 < remaining := by
  intro remaining
  induction remaining with
  | zero =>
    intro i t
    simp [send_public_inputs]
  | succ r ih =>
    intro i t
    rw [send_public_inputs]
    cases hget : t.proving_key.public_inputs[i]? with
    | none =>
      have hle : t.proving_key.public_inputs.length ≤ i := List.getElem?_eq_none_iff.mp hget
      simp only [exists_apply_eq_apply', true_iff]
      omega
    | some x =>
      have hlt : i < t.proving_key.public_inputs.length := by
        by_contra hc
        rw [List.getElem?_eq_none (Nat.le_of_not_lt hc)] at hget
        cases hget
      simp only
      rw [ih (i + 1)]
      simp only [send_to_verifier]
      omega

theorem send_public_inputs_error_kind : ∀ (remaining i : Nat) (t : OinkProver FF Poly Comm)
    (e : Fault × OinkProver FF Poly Comm), send_public_inputs remaining i t = .error e →
    e.1 = Fault.index_out_of_range := by
  intro remaining
  induction remaining with
  | zero =>
    intro i t e he
    simp [send_public_inputs] at he
  | succ r ih =>
    intro i t e he
    rw [send_public_inputs] at he
    cases hget : t.proving_key.public_inputs[i]? with
    | none =>
      rw [hget] at he
      simp only [Except.error.injEq] at he
      rw [← he]
    | some x =>
      rw [hget] at he
      exact ih _ _ e he

/-- C20: the loop over the public inputs reaches the out-of-range branch of the indexing
exactly when it is asked to run past the end of the storage. Under the precondition checked
by the preamble assertion, `execute_preamble_round` is, after its three size messages, that
loop run for `num_public_inputs` iterations from index 0; every index `i` it reads is in
bounds; the round returns having appended, after the three size messages, exactly
`num_public_inputs` messages, the `i`-th carrying `public_inputs[i]`, one per iteration; and
it never stops on an out-of-range read. -/
theorem public_input_reads_in_bounds (s : OinkProver FF Poly Comm)
    (h : s.proving_key.num_public_inputs = s.proving_key.public_inputs.length) :
    (∀ (remaining i : Nat) (t : OinkProver FF Poly Comm),
      (∃ e, send_public_inputs remaining i t = .error e) ↔
        t.proving_key.public_inputs.length < i + remaining ∧ 0 < remaining) ∧
    (∀ i, i < s.proving_key.num_public_inputs →
      ∃ x, s.proving_key.public_inputs[i]? = some x) ∧
    (∀ (n : Nat) (t : OinkProver FF Poly Comm), t.proving_key.public_inputs.length < n →
      ∃ t', send_public_inputs n 0 t = .error (Fault.index_out_of_range, t')) ∧
    (∃ sends, send_public_inputs s.proving_key.num_public_inputs 0 s =
        .ok { s with trace := s.trace ++ sends } ∧
      sends.length = s.proving_key.num_public_inputs ∧
      ∀ i, i < s.proving_key.num_public_inputs →
        ∃ x, s.proving_key.public_inputs[i]? = some x ∧
          sends[i]? = some (Call.send_to_verifier
            (s.domain_separator ++ "public_input_" ++ Nat.repr i) (Message.field x))) ∧
    execute_preamble_round s = send_public_inputs s.proving_key.num_public_inputs 0
      { s with trace := s.trace ++
        [Call.send_to_verifier (s.domain_separator ++ "circuit_size")
           (Message.uint32 (s.proving_key.circuit_size % 2 ^ 32)),
         Call.send_to_verifier (s.domain_separator ++ "public_input_size")
           (Message.uint32 (s.proving_key.num_public_inputs % 2 ^ 32)),
         Call.send_to_verifier (s.domain_separator ++ "pub_inputs_offset")
           (Message.uint32 (s.proving_key.pub_inputs_offset % 2 ^ 32))] } ∧
    (∃ sends, execute_preamble_round s = .ok { s with trace := s.trace ++
        [Call.send_to_verifier (s.domain_separator ++ "circuit_size")
           (Message.uint32 (s.proving_key.circuit_size % 2 ^ 32)),
         Call.send_to_verifier (s.domain_separator ++ "public_input_size")
           (Message.uint32 (s.proving_key.num_public_inputs % 2 ^ 32)),
         Call.send_to_verifier (s.domain_separator ++ "pub_inputs_offset")
           (Message.uint32 (s.proving_key.pub_inputs_offset % 2 ^ 32))] ++ sends } ∧
      sends.length = s.proving_key.num_public_inputs ∧
      ∀ i, i < s.proving_key.num_public_inputs →
        ∃ x, s.proving_key.public_inputs[i]? = some x ∧
          sends[i]? = some (Call.send_to_verifier
            (s.domain_separator ++ "public_input_" ++ Nat.repr i) (Message.field x))) ∧
    (∀ e, execute_preamble_round s ≠ .error (Fault.index_out_of_range, e)) := by
  have hin : ∀ i (hi : i < s.proving_key.num_public_inputs),
      s.proving_key.public_inputs[i]? =
        some (s.proving_key.public_inputs.get ⟨i, by omega⟩) := by
    intro i hi
    exact List.getElem?_eq_getElem (by omega)
  refine ⟨send_public_inputs_error_iff, fun i hi => ⟨_, hin i hi⟩, ?_, ?_, ?_, ?_, ?_⟩
  · intro n t hlt
    obtain ⟨e, he⟩ := (send_public_inputs_error_iff n 0 t).mpr ⟨by omega, by omega⟩
    have hk := send_public_inputs_error_kind n 0 t e he
    obtain ⟨f, t'⟩ := e
    simp only at hk
    subst hk
    exact ⟨t', he⟩
  · refine ⟨_, send_public_inputs_ok _ 0 s (by omega), ?_, ?_⟩
    · simp [h]
    · intro i hi
      refine ⟨_, hin i hi, ?_⟩
      have hi' : i < s.proving_key.public_inputs.length := by omega
      simp [List.getElem?_map, List.getElem?_enumFrom, hi']
  · simp [execute_preamble_round, ASSERT, send_to_verifier, h]
  · refine ⟨_, execute_preamble_round_ok s h, ?_, ?_⟩
    · simp [h, List.enum]
    · intro i hi
      refine ⟨_, hin i hi, ?_⟩
      have hi' : i < s.proving_key.public_inputs.length := by omega
      simp [List.enum, List.getElem?_map, List.getElem?_enumFrom, hi']
  · intro e he
    rw [execute_preamble_round_ok s h] at he
    cases he

theorem public_input_reads_in_bounds_witness :
    sample_prover.proving_key.num_public_inputs =
      sample_prover.proving_key.public_inputs.length ∧
    (∃ x, sample_prover.proving_key.public_inputs[1]? = some x) ∧
    (∃ t', send_public_inputs 3 0 sample_prover = .error (Fault.index_out_of_range, t')) ∧
    (∃ sends, execute_preamble_round sample_prover =
        .ok { sample_prover with trace := sample_prover.trace ++
          [Call.send_to_verifier "p_circuit_size" (Message.uint32 8),
           Call.send_to_verifier "p_public_input_size" (Message.uint32 2),
           Call.send_to_verifier "p_pub_inputs_offset" (Message.uint32 1)] ++ sends } ∧
      sends.length = 2 ∧
      sends[1]? = some (Call.send_to_verifier "p_public_input_1" (Message.field 9))) := by
  refine ⟨by decide, ?_⟩
  obtain ⟨-, h2, h3, -, -, ⟨sends, h5, h6, h7⟩, -⟩ :=
    public_input_reads_in_bounds sample_prover (by decide)
  refine ⟨h2 1 (by decide), h3 3 sample_prover (by decide), sends, h5, h6, ?_⟩
  obtain ⟨x, hx, hs⟩ := h7 1 (by decide)
  have hx9 : x = 9 := by
    have hval : sample_prover.proving_key.public_inputs[1]? = some 9 := by decide
    rw [hval] at hx
    exact (Option.some.inj hx).symm
  rw [hs, hx9]
  rfl

end PreambleValues

end Oink
